import Mathlib

/-!
Verification of the life-planner core engines
(`backend/app/engines/formula_engine.py` and
`backend/app/engines/projection_engine.py`) against their natural-language
specification.

Modelling conventions for the shallow embedding:
* Python `datetime.date` values are records of year/month/day;
  `date.replace` is fallible (`Option`), mirroring `ValueError`.
* Python `float`s are exact IEEE-754 binary64 values, represented as dyadic
  pairs `n / 2^k` with explicit round-to-nearest-even; `repr(float)` is the
  shortest round-tripping decimal, as CPython produces.
* Python `Decimal` results of `evaluate_formula` are coefficient/exponent
  pairs `(c, e)` with value `c * 10^e`; inside the projection engine the
  `Decimal` amounts are modelled as exact rationals `ℚ` (the operations the
  theorems below exercise -- sums, differences, division by 12, and small
  multiplications -- are exact in 28-digit `Decimal` context as well).
* Fallible Python code returns `Option`/`Except`; an uncaught exception is
  `none`/`.error`.
* The tree-walking evaluation of `eval` is modelled on the fragment whose
  behavior CPython determines exactly: names, numeric/string literals,
  binary `+ - * / % **`, unary `+ -`, and positional calls to the registry
  (exact arithmetic functions, the `rate` stub, and the financial helpers'
  zero-rate paths, which divide internally).  Constructs outside that
  fragment (comparisons, conditionals, keyword-argument calls, and the
  libm-dependent paths: `sqrt`/`log`/`exp`/trig, rounded float powers, the
  non-zero-rate helper branches) evaluate to the distinguished error
  `.unmodelled`, which is never identified with any Python exception.
* The projection engine takes the formula evaluator as an explicit function
  argument, mirroring the injected `self.formula_engine` collaborator.
-/

namespace LifePlanner

/-! ## Calendar dates (`datetime.date`) -/

def isLeapYear (y : ℕ) : Bool :=
  y % 4 == 0 && (y % 100 != 0 || y % 400 == 0)

def daysInMonth (y m : ℕ) : ℕ :=
  if m == 2 then (if isLeapYear y then 29 else 28)
  else if m == 4 || m == 6 || m == 9 || m == 11 then 30
  else 31

structure PyDate where
  year : ℕ
  month : ℕ
  day : ℕ
  deriving DecidableEq, Repr

def PyDate.valid (d : PyDate) : Bool :=
  1 ≤ d.month && d.month ≤ 12 && 1 ≤ d.day && d.day ≤ daysInMonth d.year d.month

/-- Model of `date.replace(year=y, month=m)`: keeps the day, raises
(returns `none`) when the day is out of range for the target month. -/
def PyDate.replaceYM (d : PyDate) (y m : ℕ) : Option PyDate :=
  if 1 ≤ m ∧ m ≤ 12 ∧ 1 ≤ d.day ∧ d.day ≤ daysInMonth y m then
    some ⟨y, m, d.day⟩
  else
    none

/-- Model of `date.replace(day=k)`. -/
def PyDate.replaceDay (d : PyDate) (k : ℕ) : Option PyDate :=
  if 1 ≤ k ∧ k ≤ daysInMonth d.year d.month then
    some ⟨d.year, d.month, k⟩
  else
    none

/-- Lexicographic order on dates, as `datetime.date.__le__`. -/
def PyDate.le (a b : PyDate) : Bool :=
  (a.year < b.year) ||
  (a.year == b.year && a.month < b.month) ||
  (a.year == b.year && a.month == b.month && a.day ≤ b.day)

def PyDate.lt (a b : PyDate) : Bool :=
  PyDate.le a b && !(a == b)

/-- Advance a valid date by one day (`d + timedelta(days=1)`). -/
def PyDate.succDay (d : PyDate) : PyDate :=
  if d.day < daysInMonth d.year d.month then ⟨d.year, d.month, d.day + 1⟩
  else if d.month < 12 then ⟨d.year, d.month + 1, 1⟩
  else ⟨d.year + 1, 1, 1⟩

/-- Model of `d + timedelta(days=n)` for `n ≥ 0`. -/
def PyDate.addDays (d : PyDate) : ℕ → PyDate
  | 0 => d
  | n + 1 => (d.succDay).addDays n

/-- Step a valid date back by one day (`d - timedelta(days=1)`). -/
def PyDate.predDay (d : PyDate) : PyDate :=
  if d.day > 1 then ⟨d.year, d.month, d.day - 1⟩
  else if d.month > 1 then ⟨d.year, d.month - 1, daysInMonth d.year (d.month - 1)⟩
  else ⟨d.year - 1, 12, 31⟩

/-- Model of `ProjectionEngine._add_months`:
the source computes
`year = date_obj.year + ((date_obj.month - 1 + months) // 12)`,
`month = ((date_obj.month - 1 + months) % 12) + 1` and then calls
`date_obj.replace(year=year, month=month)`, which keeps the day-of-month and
raises `ValueError` (modelled `none`) when that day does not exist in the
target month. -/
def addMonths (d : PyDate) (months : ℕ) : Option PyDate :=
  let year := d.year + ((d.month - 1 + months) / 12)
  let month := ((d.month - 1 + months) % 12) + 1
  d.replaceYM year month

/-! ## IEEE-754 binary64 (`float`)

A finite double is a dyadic rational `n / 2^k`.  `roundDouble p q` is the
correctly rounded (round-to-nearest, ties-to-even) double closest to the
exact rational `p / q`; CPython's float arithmetic (`+ - * /`), and its
decimal-literal parsing, are correctly rounded, so each operation below
computes the exact rational result and rounds once.  Overflow to infinity
and subnormal underflow are outside the range any claim exercises and are
not modelled. -/

structure F64 where
  n : ℤ
  k : ℕ
  deriving DecidableEq, Repr

def twoPow52 : ℤ := 4503599627370496
def twoPow53 : ℤ := 9007199254740992

/-- Scale a positive fraction `a / b` by a power of two into `[2^52, 2^53)`;
returns `(a', b', s)` with `a' / b' = (a / b) * 2^s`. -/
def normLoop : ℕ → ℤ → ℤ → ℤ → ℤ × ℤ × ℤ
  | 0, a, b, s => (a, b, s)
  | fuel + 1, a, b, s =>
    if a < twoPow52 * b then normLoop fuel (2 * a) b (s + 1)
    else if twoPow53 * b ≤ a then normLoop fuel a (2 * b) (s - 1)
    else (a, b, s)

/-- Round `a / b` (with `a ≥ 0`, `b > 0`) to the nearest integer,
ties to even. -/
def roundHalfEvenDiv (a b : ℤ) : ℤ :=
  let q := a / b
  let r := a % b
  if 2 * r < b then q
  else if b < 2 * r then q + 1
  else if q % 2 = 0 then q else q + 1

def roundPos (a b : ℤ) : F64 :=
  let x := normLoop 4400 a b 0
  let m := roundHalfEvenDiv x.1 x.2.1
  if 0 ≤ x.2.2 then ⟨m, x.2.2.toNat⟩ else ⟨m * 2 ^ (-x.2.2).toNat, 0⟩

/-- The binary64 value nearest to `p / q` (`q > 0`), ties to even. -/
def roundDouble (p q : ℤ) : F64 :=
  if p = 0 then ⟨0, 0⟩
  else if 0 < p then roundPos p q
  else
    let f := roundPos (-p) q
    ⟨-f.n, f.k⟩

def F64.neg (x : F64) : F64 := ⟨-x.n, x.k⟩

def F64.isZero (x : F64) : Bool := x.n == 0

def F64.fadd (x y : F64) : F64 :=
  let k := max x.k y.k
  roundDouble (x.n * 2 ^ (k - x.k) + y.n * 2 ^ (k - y.k)) (2 ^ k)

def F64.fsub (x y : F64) : F64 := x.fadd y.neg

def F64.fmul (x y : F64) : F64 := roundDouble (x.n * y.n) (2 ^ (x.k + y.k))

def F64.fdiv (x y : F64) : F64 :=
  if 0 ≤ y.n then roundDouble (x.n * 2 ^ y.k) (y.n * 2 ^ x.k)
  else roundDouble (-(x.n * 2 ^ y.k)) (-y.n * 2 ^ x.k)

def intToF64 (n : ℤ) : F64 := roundDouble n 1

/-- Python float `%`: `fmod` (exact, since the true remainder of two doubles
is representable) followed by the sign adjustment `r += b`, which rounds. -/
def F64.fmod (x y : F64) : F64 :=
  let num := x.n * 2 ^ y.k
  let den := y.n * 2 ^ x.k
  let q := Int.tdiv num den
  let r0 : F64 := ⟨num - q * den, x.k + y.k⟩
  if r0.n ≠ 0 ∧ ((r0.n < 0) ≠ (y.n < 0)) then
    roundDouble (r0.n + y.n * 2 ^ x.k) (2 ^ (x.k + y.k))
  else r0

/-- Decimal exponent of `num / den > 0`: the `t` with
`10^t ≤ num / den < 10^(t+1)`. -/
def decExpLoop : ℕ → ℤ → ℤ → ℤ → ℤ
  | 0, _, _, t => t
  | fuel + 1, num, den, t =>
    if num < den then decExpLoop fuel (10 * num) den (t - 1)
    else if 10 * den ≤ num then decExpLoop fuel num (10 * den) (t + 1)
    else t

/-- The correctly rounded `d`-significant-digit decimal of `n / 2^k`
(`n > 0`), returned as `(c, e)` with value `c * 10^e`. -/
def sigRound (n : ℤ) (k : ℕ) (d : ℕ) : ℤ × ℤ :=
  let t := decExpLoop 800 n (2 ^ k) 0
  let e := t - d + 1
  if 0 ≤ e then (roundHalfEvenDiv n (2 ^ k * 10 ^ e.toNat), e)
  else (roundHalfEvenDiv (n * 10 ^ (-e).toNat) (2 ^ k), e)

def F64.valEq (x y : F64) : Bool := x.n * 2 ^ y.k == y.n * 2 ^ x.k

def decToDouble (c e : ℤ) : F64 :=
  if 0 ≤ e then roundDouble (c * 10 ^ e.toNat) 1 else roundDouble c (10 ^ (-e).toNat)

def roundTripsAt (n : ℤ) (k : ℕ) (d : ℕ) : Bool :=
  let ce := sigRound n k d
  (decToDouble ce.1 ce.2).valEq ⟨n, k⟩

/-- CPython `repr(float)` (hence `str(float)`) for a positive finite double:
the shortest decimal (at most 17 significant digits) that rounds back to the
same double, correctly rounded at that digit count. -/
def shortestRepr (n : ℤ) (k : ℕ) : ℤ × ℤ :=
  match (List.range 17).find? (fun i => roundTripsAt n k (i + 1)) with
  | some i => sigRound n k (i + 1)
  | none => sigRound n k 17

/-! ## Python expression trees (`ast`) and the validator -/

inductive BinOpKind
  | add | sub | mult | div | mod | pow
  | floorDiv | lshift | rshift | bitOr | bitXor | bitAnd | matMult
  deriving DecidableEq, Repr

inductive UnaryOpKind
  | uadd | usub | invert | notOp
  deriving DecidableEq, Repr

inductive PyConst
  | int (n : ℤ)
  | float (n : ℤ) (k : ℕ)
  | str (s : String)
  | bool (b : Bool)
  | none
  deriving DecidableEq, Repr

/-- Python expression nodes (`ast.expr`).  `call` keeps both positional
arguments and keyword arguments (`ast.keyword`, whose name is `none` for a
`**kwargs` splat).  The node kinds beyond the validator's explicit cases
(`attribute`, `subscript`, `listExpr`, `lambda`) represent attribute access,
indexing, collection construction and lambda expressions. -/
inductive PyExpr
  | name (id : String)
  | const (c : PyConst)
  | binOp (left : PyExpr) (op : BinOpKind) (right : PyExpr)
  | unaryOp (op : UnaryOpKind) (operand : PyExpr)
  | call (func : PyExpr) (args : List PyExpr) (keywords : List (Option String × PyExpr))
  | compare (left : PyExpr) (comparators : List PyExpr)
  | ifExp (test : PyExpr) (body : PyExpr) (orelse : PyExpr)
  | attributeAccess (value : PyExpr) (attr : String)
  | subscript (value : PyExpr) (index : PyExpr)
  | listExpr (elts : List PyExpr)
  | lambda (body : PyExpr)

/-- The keys of `FormulaEngine.allowed_functions`. -/
def allowed_function_names : List String :=
  ["abs", "round", "min", "max", "sum", "pow", "sqrt", "ceil", "floor",
   "log", "log10", "exp", "sin", "cos", "tan", "pmt", "fv", "pv", "rate", "nper"]

def binop_allowed : BinOpKind → Bool
  | .add | .sub | .mult | .div | .mod | .pow => true
  | _ => false

def unaryop_allowed : UnaryOpKind → Bool
  | .uadd | .usub => true
  | _ => false

mutual

/-- Model of `FormulaEngine._check_node_safety` (`true` = the call returns
without raising `FormulaSecurityError`).  In the `call` case the source
checks the callee shape, the function name, and then iterates only over
`node.args`; `node.keywords` is never inspected, and this model mirrors
that. -/
def check_node_safety : PyExpr → Bool
  | .name _ => true
  | .const _ => true
  | .binOp l op r => binop_allowed op && check_node_safety l && check_node_safety r
  | .unaryOp op e => unaryop_allowed op && check_node_safety e
  | .call f args _kw =>
    (match f with
     | .name fn => allowed_function_names.contains fn
     | _ => false) && check_args_safety args
  | .compare l comps => check_node_safety l && check_args_safety comps
  | .ifExp t b o => check_node_safety t && check_node_safety b && check_node_safety o
  | _ => false

def check_args_safety : List PyExpr → Bool
  | [] => true
  | e :: es => check_node_safety e && check_args_safety es

end

mutual

/-- Every node of the expression tree: the node itself and all descendants,
including the subtrees of keyword arguments. -/
def subNodes : PyExpr → List PyExpr
  | .name s => [.name s]
  | .const c => [.const c]
  | .binOp l op r => .binOp l op r :: (subNodes l ++ subNodes r)
  | .unaryOp op e => .unaryOp op e :: subNodes e
  | .call f args kw => .call f args kw :: (subNodes f ++ subNodesList args ++ subNodesKw kw)
  | .compare l comps => .compare l comps :: (subNodes l ++ subNodesList comps)
  | .ifExp t b o => .ifExp t b o :: (subNodes t ++ subNodes b ++ subNodes o)
  | .attributeAccess v a => .attributeAccess v a :: subNodes v
  | .subscript v i => .subscript v i :: (subNodes v ++ subNodes i)
  | .listExpr es => .listExpr es :: subNodesList es
  | .lambda b => .lambda b :: subNodes b

def subNodesList : List PyExpr → List PyExpr
  | [] => []
  | e :: es => subNodes e ++ subNodesList es

def subNodesKw : List (Option String × PyExpr) → List PyExpr
  | [] => []
  | (_, e) :: es => subNodes e ++ subNodesKw es

end

/-- The allowed-construct predicate of the specification, read off the
claim: a node is allowed iff it is a literal, a variable name, an allowed
binary/unary operation, a comparison, a conditional expression, or a call
whose callee is a bare registered name. -/
def spec_node_allowed : PyExpr → Bool
  | .name _ => true
  | .const _ => true
  | .binOp _ op _ => binop_allowed op
  | .unaryOp op _ => unaryop_allowed op
  | .call f _ _ =>
    (match f with
     | .name fn => allowed_function_names.contains fn
     | _ => false)
  | .compare _ _ => true
  | .ifExp _ _ _ => true
  | _ => false

def isAttributeNode : PyExpr → Bool
  | .attributeAccess _ _ => true
  | _ => false

/-! ## The evaluator (`FormulaEngine.evaluate_formula`) -/

/-- Python runtime values reachable inside a formula evaluation: arbitrary
precision integers, binary64 floats, strings, `datetime.date` objects (the
projection engine binds one, see `component_variables`), and the registry's
function objects. -/
inductive PyVal
  | int (n : ℤ)
  | float (f : F64)
  | str (s : String)
  | date (d : PyDate)
  | fnObj (name : String)
  deriving DecidableEq, Repr

/-- Evaluation outcomes: `zeroDivision`, `typeError` and `nameError` model
the exceptions CPython raises; `unmodelled` marks the constructs outside
the embedded fragment (comparisons, conditionals, keyword-argument calls,
string concatenation/repetition, booleans, libm-dependent numeric paths)
and is never identified with any exception. -/
inductive EvalErr
  | zeroDivision | typeError | nameError | unmodelled
  deriving DecidableEq, Repr

def asF64 : PyVal → Option F64
  | .int n => some (intToF64 n)
  | .float f => some f
  | _ => Option.none

/-- Python integer `%` (sign of the divisor): `a - b * (a // b)` with floor
division. -/
def pyIntMod (a b : ℤ) : ℤ := a - b * Int.fdiv a b

def evalBin (op : BinOpKind) (a b : PyVal) : Except EvalErr PyVal :=
  match op with
  | .add =>
    match a, b with
    | .int x, .int y => .ok (.int (x + y))
    | .str _, .str _ => .error .unmodelled
    | _, _ =>
      match asF64 a, asF64 b with
      | some x, some y => .ok (.float (x.fadd y))
      | _, _ => .error .typeError
  | .sub =>
    match a, b with
    | .int x, .int y => .ok (.int (x - y))
    | .date _, .date _ => .error .unmodelled
    | _, _ =>
      match asF64 a, asF64 b with
      | some x, some y => .ok (.float (x.fsub y))
      | _, _ => .error .typeError
  | .mult =>
    match a, b with
    | .int x, .int y => .ok (.int (x * y))
    | .str _, .int _ => .error .unmodelled
    | .int _, .str _ => .error .unmodelled
    | _, _ =>
      match asF64 a, asF64 b with
      | some x, some y => .ok (.float (x.fmul y))
      | _, _ => .error .typeError
  | .div =>
    match asF64 a, asF64 b with
    | some x, some y => if y.isZero then .error .zeroDivision else .ok (.float (x.fdiv y))
    | _, _ => .error .typeError
  | .mod =>
    match a, b with
    | .int x, .int y => if y = 0 then .error .zeroDivision else .ok (.int (pyIntMod x y))
    | _, _ =>
      match asF64 a, asF64 b with
      | some x, some y => if y.isZero then .error .zeroDivision else .ok (.float (x.fmod y))
      | _, _ => .error .typeError
  | .pow =>
    match a, b with
    | .int x, .int y =>
      if 0 ≤ y then .ok (.int (x ^ y.toNat))
      else if x = 0 then .error .zeroDivision
      else
        let m := (-y).toNat
        .ok (.float (roundDouble (if x < 0 ∧ m % 2 = 1 then -1 else 1) ((x.natAbs : ℤ) ^ m)))
    | .str _, _ | _, .str _ => .error .typeError
    | .fnObj _, _ | _, .fnObj _ => .error .typeError
    | .date _, _ | _, .date _ => .error .typeError
    | _, _ => .error .unmodelled
  | _ => .error .unmodelled

def evalUnary (op : UnaryOpKind) (a : PyVal) : Except EvalErr PyVal :=
  match op, a with
  | .usub, .int n => .ok (.int (-n))
  | .usub, .float f => .ok (.float f.neg)
  | .uadd, .int n => .ok (.int n)
  | .uadd, .float f => .ok (.float f)
  | .invert, .int n => .ok (.int (-(n + 1)))
  | .notOp, _ => .error .unmodelled
  | _, _ => .error .typeError

/-- The binary64 double denoted by the decimal literal `a / 10^p` in a
formula source (CPython's literal parsing is correctly rounded). -/
def floatLit (a : ℤ) (p : ℕ) : F64 := roundDouble a (10 ^ p)

/-- A numeric Python value (`int` or `float`), as the claims use the term. -/
def PyVal.isNumeric : PyVal → Bool
  | .int _ => true
  | .float _ => true
  | _ => false

/-- Python value-equality with the integer zero (`rate == 0` in the
financial helpers): numeric comparison across `int`/`float`, `False` for any
non-numeric value (cross-type `==` does not raise). -/
def isZeroNum : PyVal → Bool
  | .int n => n == 0
  | .float f => f.n == 0
  | _ => false

/-- The exact value of a numeric Python value as a fraction
(numerator, positive denominator).  Python compares `int` with `float`
exactly, without converting, so comparisons go through this. -/
def numPair : PyVal → Option (ℤ × ℤ)
  | .int n => some (n, 1)
  | .float f => some (f.n, 2 ^ f.k)
  | _ => Option.none

/-- `abs` on numbers; `TypeError` otherwise. -/
def pyAbs : PyVal → Except EvalErr PyVal
  | .int n => .ok (.int (if n < 0 then -n else n))
  | .float f => .ok (.float ⟨if f.n < 0 then -f.n else f.n, f.k⟩)
  | _ => .error .typeError

/-- One-argument `round` on a float: nearest integer, ties to even. -/
def roundHalfEvenF64 (f : F64) : ℤ :=
  if 0 ≤ f.n then roundHalfEvenDiv f.n (2 ^ f.k)
  else -(roundHalfEvenDiv (-f.n) (2 ^ f.k))

def floorF64 (f : F64) : ℤ := Int.fdiv f.n (2 ^ f.k)

def ceilF64 (f : F64) : ℤ := -(Int.fdiv (-f.n) (2 ^ f.k))

/-- `min`/`max` over two or more arguments: exact value comparison, the
first extremal argument wins (as CPython: replace only on a strict
improvement).  A single scalar argument is not iterable (`TypeError`);
non-numeric arguments (e.g. all-string comparisons, which are legal Python)
are outside the modelled fragment. -/
def pyMinMax (isMax : Bool) : List PyVal → Except EvalErr PyVal
  | [] => .error .typeError
  | [_] => .error .typeError
  | v :: rest =>
    if (v :: rest).all (fun x => x.isNumeric) then
      .ok (rest.foldl (fun cur x =>
        match numPair cur, numPair x with
        | some (cn, cd), some (xn, xd) =>
          if isMax then (if cn * xd < xn * cd then x else cur)
          else (if xn * cd < cn * xd then x else cur)
        | _, _ => cur) v)
    else .error .unmodelled

/-- `FormulaEngine._pmt`.  The `rate == 0` branch `-(pv + fv) / nper` is
exact float arithmetic (and raises `ZeroDivisionError` when `nper` is
zero); the non-zero-rate branch goes through libm `pow` after computing
`rate / 12`, and is outside the modelled fragment. -/
def pyPmt (rate np pv fv : PyVal) : Except EvalErr PyVal :=
  if isZeroNum rate then
    match evalBin .add pv fv with
    | .error e => .error e
    | .ok s =>
      match evalUnary .usub s with
      | .error e => .error e
      | .ok ns => evalBin .div ns np
  else
    match evalBin .div rate (.int 12) with
    | .error e => .error e
    | .ok _ => .error .unmodelled

/-- `FormulaEngine._fv`.  With `rate / 12` equal to zero the expression is
`pv * (1.0) ** nper + pmt * ((1.0 ** nper - 1) / 0.0)` (IEEE `pow(1, y)` is
exactly 1): a non-numeric `nper` raises `TypeError` at the power, then a
non-numeric `pv` raises `TypeError` at the first product, and otherwise the
division `0.0 / 0.0` raises `ZeroDivisionError` before `pmt` is ever used.
A non-zero rate goes through libm `pow` and is outside the modelled
fragment. -/
def pyFv (rate np _pmtArg pv : PyVal) : Except EvalErr PyVal :=
  match evalBin .div rate (.int 12) with
  | .error e => .error e
  | .ok rpp =>
    if isZeroNum rpp then
      if !np.isNumeric then .error .typeError
      else if !pv.isNumeric then .error .typeError
      else .error .zeroDivision
    else .error .unmodelled

/-- `FormulaEngine._pv`.  With `rate / 12` equal to zero: a non-numeric
`nper` raises `TypeError` at the power, otherwise `(1.0 ** nper - 1) / 0.0`
raises `ZeroDivisionError` before `pmt` or `fv` is used.  A non-zero rate is
outside the modelled fragment. -/
def pyPv (rate np _pmtArg _fvArg : PyVal) : Except EvalErr PyVal :=
  match evalBin .div rate (.int 12) with
  | .error e => .error e
  | .ok rpp =>
    if isZeroNum rpp then
      if !np.isNumeric then .error .typeError
      else .error .zeroDivision
    else .error .unmodelled

/-- `FormulaEngine._nper`.  The `rate == 0` branch `-(pv + fv) / pmt` is
exact (and raises `ZeroDivisionError` for a zero `pmt`); the non-zero-rate
branch goes through `math.log` and is outside the modelled fragment. -/
def pyNper (rate pmtArg pv fv : PyVal) : Except EvalErr PyVal :=
  if isZeroNum rate then
    match evalBin .add pv fv with
    | .error e => .error e
    | .ok s =>
      match evalUnary .usub s with
      | .error e => .error e
      | .ok ns => evalBin .div ns pmtArg
  else
    match evalBin .div rate (.int 12) with
    | .error e => .error e
    | .ok _ => .error .unmodelled

/-- Application of a registry function to its (already evaluated)
positional arguments, mirroring `allowed_functions`.  Behavior that CPython
determines exactly is modelled exactly — `abs`, one-argument `round`,
`min`/`max`, `sum` (always a `TypeError` on scalars, which are not
iterable), two-argument `pow` (same semantics as `**`), `ceil`/`floor`, the
`rate` stub (it returns the constant 0.05 without touching its arguments),
and the zero-rate paths of `pmt`/`fv`/`pv`/`nper` — while paths through
libm (`sqrt`, `log`, `log10`, `exp`, `sin`, `cos`, `tan`, non-integer or
rounded float powers, two-argument `round`, three-argument `pow`) are the
distinguished `.unmodelled`.  A wrong number of arguments raises
`TypeError`. -/
def applyRegistry : String → List PyVal → Except EvalErr PyVal
  | "abs", [v] => pyAbs v
  | "abs", _ => .error .typeError
  | "round", [v] =>
    (match v with
     | .int n => .ok (.int n)
     | .float f => .ok (.int (roundHalfEvenF64 f))
     | _ => .error .typeError)
  | "round", [_, _] => .error .unmodelled
  | "round", _ => .error .typeError
  | "min", vals => pyMinMax false vals
  | "max", vals => pyMinMax true vals
  | "sum", _ => .error .typeError
  | "pow", [a, b] => evalBin .pow a b
  | "pow", [_, _, _] => .error .unmodelled
  | "pow", _ => .error .typeError
  | "ceil", [v] =>
    (match v with
     | .int n => .ok (.int n)
     | .float f => .ok (.int (ceilF64 f))
     | _ => .error .typeError)
  | "ceil", _ => .error .typeError
  | "floor", [v] =>
    (match v with
     | .int n => .ok (.int n)
     | .float f => .ok (.int (floorF64 f))
     | _ => .error .typeError)
  | "floor", _ => .error .typeError
  | "pmt", [r, np, pv] => pyPmt r np pv (.int 0)
  | "pmt", [r, np, pv, fv] => pyPmt r np pv fv
  | "pmt", [r, np, pv, fv, _] => pyPmt r np pv fv
  | "pmt", _ => .error .typeError
  | "fv", [r, np, p] => pyFv r np p (.int 0)
  | "fv", [r, np, p, pv] => pyFv r np p pv
  | "fv", [r, np, p, pv, _] => pyFv r np p pv
  | "fv", _ => .error .typeError
  | "pv", [r, np, p] => pyPv r np p (.int 0)
  | "pv", [r, np, p, f] => pyPv r np p f
  | "pv", [r, np, p, f, _] => pyPv r np p f
  | "pv", _ => .error .typeError
  | "rate", [_, _, _] => .ok (.float (floatLit 5 2))
  | "rate", [_, _, _, _] => .ok (.float (floatLit 5 2))
  | "rate", [_, _, _, _, _] => .ok (.float (floatLit 5 2))
  | "rate", [_, _, _, _, _, _] => .ok (.float (floatLit 5 2))
  | "rate", _ => .error .typeError
  | "nper", [r, p, pv] => pyNper r p pv (.int 0)
  | "nper", [r, p, pv, f] => pyNper r p pv f
  | "nper", [r, p, pv, f, _] => pyNper r p pv f
  | "nper", _ => .error .typeError
  | _, _ => .error .unmodelled

mutual

/-- The tree-walking evaluation performed by `eval(formula, safe_globals, {})`
on the modelled fragment (see the header comment).  Error propagation is
strict and left-to-right, as in CPython: a call evaluates its callee, then
its positional arguments, and applies the registry function (calling a
non-function value such as a shadowed registry name raises `TypeError`);
calls with keyword arguments are outside the modelled fragment. -/
def evalPy (env : String → Option PyVal) : PyExpr → Except EvalErr PyVal
  | .name k =>
    match env k with
    | some v => .ok v
    | Option.none => .error .nameError
  | .const c =>
    match c with
    | .int n => .ok (.int n)
    | .float n k => .ok (.float ⟨n, k⟩)
    | .str s => .ok (.str s)
    | _ => .error .unmodelled
  | .binOp l op r =>
    match evalPy env l with
    | .error e => .error e
    | .ok a =>
      match evalPy env r with
      | .error e => .error e
      | .ok b => evalBin op a b
  | .unaryOp op e =>
    match evalPy env e with
    | .error err => .error err
    | .ok a => evalUnary op a
  | .call f args kws =>
    match kws with
    | _ :: _ => .error .unmodelled
    | [] =>
      match evalPy env f with
      | .error e => .error e
      | .ok (.fnObj fname) =>
        match evalArgs env args with
        | .error e => .error e
        | .ok vals => applyRegistry fname vals
      | .ok _ => .error .typeError
  | _ => .error .unmodelled

/-- Left-to-right evaluation of a call's positional arguments, stopping at
the first raised exception. -/
def evalArgs (env : String → Option PyVal) : List PyExpr → Except EvalErr (List PyVal)
  | [] => .ok []
  | e :: es =>
    match evalPy env e with
    | .error err => .error err
    | .ok v =>
      match evalArgs env es with
      | .error err => .error err
      | .ok vs => .ok (v :: vs)

end

def lookupVar (vars : List (String × PyVal)) (k : String) : Option PyVal :=
  (vars.reverse.find? (fun p => p.1 == k)).map (·.2)

/-- The constant `math.pi` as an exact binary64 value. -/
def pi_f64 : F64 := ⟨884279719003555, 48⟩

/-- The constant `math.e` as an exact binary64 value. -/
def e_f64 : F64 := ⟨6121026514868073, 51⟩

def allowed_constants : List (String × PyVal) :=
  [("pi", .float pi_f64), ("e", .float e_f64)]

/-- The name-resolution environment of
`safe_globals = {**allowed_functions, **allowed_constants, **variables,
'__builtins__': {}}`: in a dict literal later keys overwrite earlier ones,
so lookup tries the caller's variables first, then the constants, then the
function registry. -/
def safe_globals (vars : List (String × PyVal)) (k : String) : Option PyVal :=
  match lookupVar vars k with
  | some v => some v
  | Option.none =>
    match lookupVar allowed_constants k with
    | some v => some v
    | Option.none =>
      if allowed_function_names.contains k then some (.fnObj k) else Option.none

/-- The error outcomes of `evaluate_formula`, by the `except` clause that
produces them: `divisionByZero` is `FormulaEvaluationError("Division by
zero")` from `except ZeroDivisionError`; `evaluationError` comes from
`except (ValueError, TypeError)`; `unexpectedError` from the final
`except Exception` (this includes `NameError` for unbound variables and the
internal re-raise for non-numeric results); `securityError` marks a formula
the validator rejects. -/
inductive FormulaError
  | securityError | divisionByZero | evaluationError | unexpectedError | unmodelled
  deriving DecidableEq, Repr

/-- The value of `Decimal(str(result))` for a float result, as a
coefficient/exponent pair. -/
def decOfFloat (f : F64) : ℤ × ℤ :=
  if f.n = 0 then (0, -1)
  else if 0 < f.n then shortestRepr f.n f.k
  else
    let ce := shortestRepr (-f.n) f.k
    (-ce.1, ce.2)

/-- The exact rational value of a `Decimal` coefficient/exponent pair. -/
def decToQ (d : ℤ × ℤ) : ℚ := (d.1 : ℚ) * (10 : ℚ) ^ d.2

/-- Model of `FormulaEngine.evaluate_formula` on a parsed tree: validate,
evaluate under `safe_globals`, then normalise an `int`/`float` result through
`Decimal(str(result))`; a result of any other type raises inside the `try`
and surfaces as a generic `FormulaEvaluationError`.  (The `MAX_FORMULA_LENGTH`
check and the textual parse happen on the source string, before the tree this
model starts from; no claim depends on them.) -/
def evaluate_formula (e : PyExpr) (vars : List (String × PyVal)) :
    Except FormulaError (ℤ × ℤ) :=
  if check_node_safety e then
    match evalPy (safe_globals vars) e with
    | .ok (.int n) => .ok (n, 0)
    | .ok (.float f) => .ok (decOfFloat f)
    | .ok _ => .error .unexpectedError
    | .error .zeroDivision => .error .divisionByZero
    | .error .typeError => .error .evaluationError
    | .error .nameError => .error .unexpectedError
    | .error .unmodelled => .error .unmodelled
  else .error .securityError

/-- Does the tree contain a division or modulo node anywhere? -/
def containsDivMod (e : PyExpr) : Bool :=
  (subNodes e).any fun sub =>
    match sub with
    | .binOp _ .div _ => true
    | .binOp _ .mod _ => true
    | _ => false

/-- Does the tree contain a division, modulo or power node anywhere? -/
def containsDivModPow (e : PyExpr) : Bool :=
  (subNodes e).any fun sub =>
    match sub with
    | .binOp _ .div _ => true
    | .binOp _ .mod _ => true
    | .binOp _ .pow _ => true
    | _ => false

end LifePlanner

deriving instance DecidableEq for Except

namespace LifePlanner

/-! ## The projection engine (`ProjectionEngine`) -/

def month_name : ℕ → String
  | 1 => "january"
  | 2 => "february"
  | 3 => "march"
  | 4 => "april"
  | 5 => "may"
  | 6 => "june"
  | 7 => "july"
  | 8 => "august"
  | 9 => "september"
  | 10 => "october"
  | 11 => "november"
  | 12 => "december"
  | _ => ""

def month_abbrev : ℕ → String
  | 1 => "jan"
  | 2 => "feb"
  | 3 => "mar"
  | 4 => "apr"
  | 5 => "may"
  | 6 => "jun"
  | 7 => "jul"
  | 8 => "aug"
  | 9 => "sep"
  | 10 => "oct"
  | 11 => "nov"
  | 12 => "dec"
  | _ => ""

/-- A `FinancialComponent` row, with the fields the projection engine reads.
`vars` is the JSON `variables` column (the word `variables` is reserved in
Lean). -/
structure FinancialComponent where
  id : ℕ
  name : String
  category : String
  formula : String
  vars : List (String × PyVal)
  start_date : PyDate
  end_date : Option PyDate
  frequency : String
  seasonal_factors : Option (List (String × ℚ))
  deriving DecidableEq, Repr

/-- A `ScenarioComponent` row. -/
structure ScenarioComponent where
  financial_component_id : ℕ
  variable_overrides : Option (List (String × PyVal))
  start_date_override : Option PyDate
  end_date_override : Option PyDate
  deriving DecidableEq, Repr

/-- The `Scenario` fields the engine reads.  Life events are modelled as
their (already parsed) dates. -/
structure Scenario where
  start_date : PyDate
  projection_months : ℕ
  life_events : List PyDate
  deriving DecidableEq, Repr

/-- Python dict update `d[k] = v`: overwrite in place when the key exists
(dicts preserve insertion position on overwrite), else append. -/
def dict_update (d : List (String × PyVal)) (kv : String × PyVal) :
    List (String × PyVal) :=
  if d.any (fun p => p.1 == kv.1) then
    d.map (fun p => if p.1 == kv.1 then (p.1, kv.2) else p)
  else d ++ [kv]

def dict_update_many (d us : List (String × PyVal)) : List (String × PyVal) :=
  us.foldl dict_update d

/-- The date expression the source binds to `days_in_month`:
`(current_date.replace(day=28) + timedelta(days=4)).replace(day=1) -
timedelta(days=1)` — the last day of the current month, **as a `date`
object** (the source never takes `.day` of it). -/
def last_day_of_month (d : PyDate) : Option PyDate :=
  (d.replaceDay 28).bind fun d28 =>
    ((d28.addDays 4).replaceDay 1).map PyDate.predDay

/-- The variable dict built in `_calculate_component_value`: component
defaults, updated with the scenario's `variable_overrides`, updated last
with the four reserved time-context keys. -/
def component_variables (fc : FinancialComponent) (sc : ScenarioComponent)
    (current_date : PyDate) (month_num : ℕ) : Option (List (String × PyVal)) :=
  let base := dict_update_many fc.vars (sc.variable_overrides.getD [])
  (last_day_of_month current_date).map fun ld =>
    dict_update_many base
      [("month", .int month_num),
       ("year", .int current_date.year),
       ("month_name", .str (month_name current_date.month)),
       ("days_in_month", .date ld)]

/-- Model of `ProjectionEngine._is_component_active`: scenario override dates
replace the component's own dates when present (Python `or`), then the
window test. -/
def is_component_active (fc : FinancialComponent) (sc : ScenarioComponent)
    (current_date : PyDate) : Bool :=
  let start_date := sc.start_date_override.getD fc.start_date
  let end_date :=
    match sc.end_date_override with
    | some e => some e
    | none => fc.end_date
  if current_date.lt start_date then false
  else
    match end_date with
    | some e => !(e.lt current_date)
    | none => true

/-- The seasonal-factor step: multiply when the component defines a factor
for the current month's three-letter abbreviation.  The JSON factor passes
through `Decimal(str(factor))`; it is modelled as the exact rational it
denotes. -/
def apply_seasonal (fc : FinancialComponent) (current_date : PyDate) (v : ℚ) : ℚ :=
  match fc.seasonal_factors with
  | some sf =>
    match (sf.find? (fun p => p.1 == month_abbrev current_date.month)).map (·.2) with
    | some factor => v * factor
    | none => v
  | none => v

/-- Model of `ProjectionEngine._calculate_component_value`.  `fe` is the
injected `self.formula_engine.evaluate_formula` collaborator; its `.error`
is the message of the exception it raises.  The formula is evaluated
*before* the frequency policy, so an evaluation error propagates even in
months the policy zeroes out; the `yearly`/`quarterly` zero months return
early, skipping the seasonal step, exactly as the source's `return
Decimal('0')` does. -/
def calculate_component_value (fe : String → List (String × PyVal) → Except String ℚ)
    (fc : FinancialComponent) (sc : ScenarioComponent)
    (current_date : PyDate) (month_num : ℕ) : Except String ℚ :=
  match component_variables fc sc current_date month_num with
  | none => .error "day is out of range for month"
  | some vars =>
    match fe fc.formula vars with
    | .error e => .error e
    | .ok base =>
      if fc.frequency == "yearly" then
        if current_date.month ≠ 1 then .ok 0
        else .ok (apply_seasonal fc current_date (base / 12))
      else if fc.frequency == "quarterly" then
        if !(current_date.month == 1 || current_date.month == 4 ||
             current_date.month == 7 || current_date.month == 10) then .ok 0
        else .ok (apply_seasonal fc current_date (base / 3))
      else if fc.frequency == "one-time" then
        if month_num > 1 then .ok 0
        else .ok (apply_seasonal fc current_date base)
      else .ok (apply_seasonal fc current_date base)

/-- One entry of `component_breakdown`: `{'value': …, 'category': …,
'component_id': …}`, plus `'error'` on the failure path. -/
structure BreakdownEntry where
  value : ℚ
  category : String
  component_id : ℕ
  error : Option String
  deriving DecidableEq, Repr

structure MonthlyProjectionRecord where
  projection_date : PyDate
  month_number : ℕ
  total_income : ℚ
  total_expenses : ℚ
  net_cash_flow : ℚ
  total_assets : ℚ
  total_liabilities : ℚ
  net_worth : ℚ
  component_breakdown : List (String × BreakdownEntry)
  active_life_events : List PyDate
  deriving DecidableEq, Repr

/-- The running state of one month's component loop. -/
structure MonthAcc where
  bd : List (String × BreakdownEntry)
  ti : ℚ
  te : ℚ
  ta : ℚ
  tl : ℚ
  deriving DecidableEq, Repr

/-- The assignment `component_breakdown[fc.name] = {...}`: dict
insert-or-overwrite keyed by the component **name**. -/
def bd_update (bd : List (String × BreakdownEntry)) (kv : String × BreakdownEntry) :
    List (String × BreakdownEntry) :=
  if bd.any (fun p => p.1 == kv.1) then
    bd.map (fun p => if p.1 == kv.1 then (p.1, kv.2) else p)
  else bd ++ [kv]

/-- The lookup `financial_components.get(sc.financial_component_id)`. -/
def lookup_component (fcs : List FinancialComponent) (i : ℕ) :
    Option FinancialComponent :=
  fcs.find? (fun fc => fc.id == i)

/-- The body of the `for sc in scenario_components` loop for one scenario
component: skip unknown ids, skip inactive components, and on evaluation
failure record a zero-valued entry with the error message and leave the
totals untouched (`except Exception` around the whole value computation). -/
def month_step (fe : String → List (String × PyVal) → Except String ℚ)
    (fcs : List FinancialComponent) (current_date : PyDate) (month_num : ℕ)
    (acc : MonthAcc) (sc : ScenarioComponent) : MonthAcc :=
  match lookup_component fcs sc.financial_component_id with
  | none => acc
  | some fc =>
    if !(is_component_active fc sc current_date) then acc
    else
      match calculate_component_value fe fc sc current_date month_num with
      | .ok value =>
        { bd := bd_update acc.bd (fc.name, ⟨value, fc.category, fc.id, none⟩)
          ti := if fc.category == "income" then acc.ti + value else acc.ti
          te := if fc.category == "expense" then acc.te + value else acc.te
          ta := if fc.category == "asset" then acc.ta + value else acc.ta
          tl := if fc.category == "liability" then acc.tl + value else acc.tl }
      | .error msg =>
        { acc with bd := bd_update acc.bd (fc.name, ⟨0, fc.category, fc.id, some msg⟩) }

/-- One iteration of the month loop: fold the components, then build the
`MonthlyProjectionCreate` record with `net_cash_flow = total_income -
total_expenses` and `net_worth = total_assets - total_liabilities`. -/
def month_record (fe : String → List (String × PyVal) → Except String ℚ)
    (fcs : List FinancialComponent) (scs : List ScenarioComponent)
    (levents : List PyDate) (current_date : PyDate) (month_num : ℕ) :
    MonthlyProjectionRecord :=
  let t := scs.foldl (month_step fe fcs current_date month_num) ⟨[], 0, 0, 0, 0⟩
  { projection_date := current_date
    month_number := month_num
    total_income := t.ti
    total_expenses := t.te
    net_cash_flow := t.ti - t.te
    total_assets := t.ta
    total_liabilities := t.tl
    net_worth := t.ta - t.tl
    component_breakdown := t.bd
    active_life_events := levents.filter (fun ev => ev.le current_date) }

/-- The `for month_num in range(1, projection_months + 1)` loop.  The date
is advanced *after every iteration, including the last*; if `_add_months`
raises, the exception escapes `calculate_scenario_projection` and no list is
returned (`none`). -/
def projection_loop (fe : String → List (String × PyVal) → Except String ℚ)
    (fcs : List FinancialComponent) (scs : List ScenarioComponent)
    (levents : List PyDate) :
    ℕ → PyDate → ℕ → Option (List MonthlyProjectionRecord)
  | 0, _, _ => some []
  | k + 1, current_date, month_num =>
    let r := month_record fe fcs scs levents current_date month_num
    match addMonths current_date 1 with
    | none => none
    | some d' =>
      (projection_loop fe fcs scs levents k d' (month_num + 1)).map (r :: ·)

/-- Model of `ProjectionEngine.calculate_scenario_projection` after the two
database fetches: iterate the months from the scenario's start date. -/
def calculate_scenario_projection
    (fe : String → List (String × PyVal) → Except String ℚ)
    (scen : Scenario) (scs : List ScenarioComponent)
    (fcs : List FinancialComponent) : Option (List MonthlyProjectionRecord) :=
  projection_loop fe fcs scs scen.life_events scen.projection_months scen.start_date 1

/-- The claim-side reading of a record's totals: the sum of the values of
the breakdown entries of one category, error-free entries only. -/
def breakdown_sum (cat : String) (bd : List (String × BreakdownEntry)) : ℚ :=
  ((bd.filter (fun p => p.2.category == cat && p.2.error == Option.none)).map
    (fun p => p.2.value)).sum

/-- Dictionary lookup in a breakdown map. -/
def lookup_bd (bd : List (String × BreakdownEntry)) (k : String) :
    Option BreakdownEntry :=
  (bd.find? (fun p => p.1 == k)).map (·.2)

/-- The key set of a breakdown map. -/
def bd_keys (bd : List (String × BreakdownEntry)) : List String := bd.map (·.1)

/-- The names of the financial components each scenario component resolves
to (in loop order); breakdown entries are keyed by these names. -/
def resolved_names (fcs : List FinancialComponent) (scs : List ScenarioComponent) :
    List String :=
  scs.filterMap (fun sc => (lookup_component fcs sc.financial_component_id).map (·.name))

/-- The calendar months visited by `k` consecutive projection steps that
start in calendar month `m0`. -/
def monthSeq (m0 k : ℕ) : List ℕ :=
  (List.range k).map (fun i => (m0 - 1 + i) % 12 + 1)

/-! ## Concrete instances used by individual claims -/

/-- An evaluator collaborator that returns the same value for every formula
and variable set. -/
def const_fe (v : ℚ) : String → List (String × PyVal) → Except String ℚ :=
  fun _ _ => .ok v

/-- An evaluator collaborator that fails (as on an unbound variable) for the
formula `"bad"` and succeeds with 7 otherwise. -/
def c3_fe : String → List (String × PyVal) → Except String ℚ :=
  fun f _ => if f == "bad" then .error "name 'x' is not defined" else .ok 7

/-- The parse tree of `"abs(k=a.b)"`: a call to the registered name `abs`
with no positional arguments and one keyword argument whose value is the
attribute access `a.b`. -/
def c1_formula : PyExpr :=
  .call (.name "abs") [] [(some "k", .attributeAccess (.name "a") "b")]

/-- The double denoted by the literal `0.1`. -/
def lit01 : F64 := floatLit 1 1

/-- The double denoted by the literal `0.2`. -/
def lit02 : F64 := floatLit 2 1

/-- The parse tree of `"0.1 + 0.2"` (each literal already parsed to its
binary64 value, as `ast.Constant` holds it). -/
def c4_formula : PyExpr :=
  .binOp (.const (.float lit01.n lit01.k)) .add (.const (.float lit02.n lit02.k))

/-- The parse tree of `"a / b"`. -/
def c9_div_formula : PyExpr := .binOp (.name "a") .div (.name "b")

/-- The parse tree of `"0 ** -1"`. -/
def c9_pow_formula : PyExpr :=
  .binOp (.const (.int 0)) .pow (.unaryOp .usub (.const (.int 1)))

/-- The parse tree of `"pmt(0, 0, 100)"`. -/
def c9_pmt_formula : PyExpr :=
  .call (.name "pmt") [.const (.int 0), .const (.int 0), .const (.int 100)] []

/-- The parse tree of `"fv(0, 12, 100)"`. -/
def c9_fv_formula : PyExpr :=
  .call (.name "fv") [.const (.int 0), .const (.int 12), .const (.int 100)] []

/-- The parse tree of `"nper(0, 0, 100)"`. -/
def c9_nper_formula : PyExpr :=
  .call (.name "nper") [.const (.int 0), .const (.int 0), .const (.int 100)] []

/-- A component whose defaults even bind `days_in_month`, to exhibit the
reserved-key precedence. -/
def c8_component : FinancialComponent :=
  { id := 7
    name := "rent"
    category := "expense"
    formula := "base * days_in_month"
    vars := [("days_in_month", .int 99), ("base", .int 2)]
    start_date := ⟨2020, 1, 1⟩
    end_date := none
    frequency := "monthly"
    seasonal_factors := none }

def c8_scenario_component : ScenarioComponent :=
  { financial_component_id := 7
    variable_overrides := some [("base", .int 3)]
    start_date_override := none
    end_date_override := none }

/-- A one-time component whose stored window starts only in the second
projection month. -/
def c6_component : FinancialComponent :=
  { id := 1
    name := "bonus"
    category := "income"
    formula := "grant"
    vars := []
    start_date := ⟨2024, 2, 1⟩
    end_date := none
    frequency := "one-time"
    seasonal_factors := none }

def c6_scenario_component : ScenarioComponent :=
  { financial_component_id := 1
    variable_overrides := none
    start_date_override := none
    end_date_override := none }

def c6_scenario : Scenario :=
  { start_date := ⟨2024, 1, 15⟩
    projection_months := 2
    life_events := [] }

/-- An always-active monthly income component. -/
def c2_component : FinancialComponent :=
  { id := 4
    name := "salary"
    category := "income"
    formula := "pay"
    vars := []
    start_date := ⟨2020, 1, 1⟩
    end_date := none
    frequency := "monthly"
    seasonal_factors := none }

def c2_scenario_component : ScenarioComponent :=
  { financial_component_id := 4
    variable_overrides := none
    start_date_override := none
    end_date_override := none }

def c2_scenario : Scenario :=
  { start_date := ⟨2024, 1, 15⟩
    projection_months := 1
    life_events := [] }

/-- The single record the C2 witness scenario produces. -/
def c2_record : MonthlyProjectionRecord :=
  { projection_date := ⟨2024, 1, 15⟩
    month_number := 1
    total_income := 10
    total_expenses := 0
    net_cash_flow := 10
    total_assets := 0
    total_liabilities := 0
    net_worth := 0
    component_breakdown := [("salary", ⟨10, "income", 4, none⟩)]
    active_life_events := [] }

/-- A component whose formula (`"bad"`) fails under `c3_fe`. -/
def c3_bad_component : FinancialComponent :=
  { id := 10
    name := "crypto"
    category := "income"
    formula := "bad"
    vars := []
    start_date := ⟨2020, 1, 1⟩
    end_date := none
    frequency := "monthly"
    seasonal_factors := none }

/-- A component whose formula evaluates normally under `c3_fe`. -/
def c3_good_component : FinancialComponent :=
  { id := 11
    name := "wage"
    category := "income"
    formula := "ok"
    vars := []
    start_date := ⟨2020, 1, 1⟩
    end_date := none
    frequency := "monthly"
    seasonal_factors := none }

def c3_bad_sc : ScenarioComponent :=
  { financial_component_id := 10
    variable_overrides := none
    start_date_override := none
    end_date_override := none }

def c3_good_sc : ScenarioComponent :=
  { financial_component_id := 11
    variable_overrides := none
    start_date_override := none
    end_date_override := none }

/-- An always-active yearly component for the C7 witness. -/
def c7_component : FinancialComponent :=
  { id := 2
    name := "insurance"
    category := "expense"
    formula := "premium"
    vars := []
    start_date := ⟨2000, 1, 1⟩
    end_date := none
    frequency := "yearly"
    seasonal_factors := none }

def c7_scenario_component : ScenarioComponent :=
  { financial_component_id := 2
    variable_overrides := none
    start_date_override := none
    end_date_override := none }

end LifePlanner

namespace LifePlanner

/-! # Theorems -/

/-! ## General lemmas about the calendar model -/

/-- Every month has at least 28 days. -/
theorem le_daysInMonth (y m : ℕ) : 28 ≤ daysInMonth y m := by
  unfold daysInMonth
  repeat' split
  all_goals omega

/-- Advancing by one month never raises when the day-of-month is at
most 28, and the result is a later valid date in the following calendar
month. -/
theorem addMonths_day_le_28 (d : PyDate) (hv : d.valid = true) (hd : d.day ≤ 28) :
    ∃ d' : PyDate, addMonths d 1 = some d' ∧ d'.valid = true ∧ d'.day = d.day ∧
      (d'.month = d.month % 12 + 1) ∧ PyDate.le d d' = true := by
  simp only [PyDate.valid, Bool.and_eq_true, decide_eq_true_eq] at hv
  obtain ⟨⟨⟨hm1, hm2⟩, hd1⟩, _⟩ := hv
  refine ⟨⟨d.year + (d.month - 1 + 1) / 12, (d.month - 1 + 1) % 12 + 1, d.day⟩, ?_, ?_, rfl, ?_, ?_⟩
  · simp only [addMonths, PyDate.replaceYM]
    rw [if_pos]
    refine ⟨Nat.le_add_left _ _, ?_, hd1, ?_⟩
    · omega
    · have h28 := le_daysInMonth (d.year + (d.month - 1 + 1) / 12) ((d.month - 1 + 1) % 12 + 1)
      omega
  · simp only [PyDate.valid, Bool.and_eq_true, decide_eq_true_eq]
    have h28 := le_daysInMonth (d.year + (d.month - 1 + 1) / 12) ((d.month - 1 + 1) % 12 + 1)
    refine ⟨⟨⟨?_, ?_⟩, ?_⟩, ?_⟩ <;> omega
  · show (d.month - 1 + 1) % 12 + 1 = d.month % 12 + 1
    omega
  · simp only [PyDate.le, Bool.or_eq_true, Bool.and_eq_true, decide_eq_true_eq, beq_iff_eq]
    omega

/-! ## C1 -/

/-- C1: the claim states that every node of a formula accepted by
`validate_formula` — keyword-argument subtrees included — is one of the
allowed constructs, with no attribute access anywhere.  It fails on the
code: `_check_node_safety` iterates only `node.args` of a call, never
`node.keywords`, so the formula `abs(k=a.b)` is accepted although its
keyword argument contains an attribute-access node the specification's
grammar forbids. -/
theorem C1_keyword_arguments_escape_validation :
    check_node_safety c1_formula = true ∧
    (subNodes c1_formula).any isAttributeNode = true ∧
    (subNodes c1_formula).all spec_node_allowed = false := by
  decide

/-! ## C4 -/

/-- C4 counterexample: `evaluate_formula("0.1 + 0.2", {})` does **not**
return the exact decimal 0.3.  The addition happens in binary64, where
0.1 + 0.2 = 5404319552844596 / 2^54, and `Decimal(str(result))` preserves
the shortest repr of that float, namely 0.30000000000000004. -/
theorem C4_point_three_counterexample :
    evaluate_formula c4_formula [] = .ok (30000000000000004, -17) ∧
    decToQ (30000000000000004, -17) ≠ 3 / 10 := by
  constructor
  · decide
  · norm_num [decToQ]

/-- C4 amended: `evaluate_formula("0.1 + 0.2", {})` returns exactly
`Decimal('0.30000000000000004')` — the binary-floating-point residue of the
float addition survives the string conversion, whose value is
30000000000000004 / 10^17. -/
theorem C4_residue_preserved :
    evaluate_formula c4_formula [] = .ok (30000000000000004, -17) ∧
    decToQ (30000000000000004, -17) = 30000000000000004 / 10 ^ 17 := by
  constructor
  · decide
  · norm_num [decToQ]

/-! ## C5 -/

/-- C5: the claim states that advancing a day-29/30/31 date into a shorter
month does not throw.  It fails on the code: `_add_months` keeps the
day-of-month and calls `date.replace`, which raises `ValueError` — from
January 31, 2024 (a valid date) the engine raises instead of producing a
February date, and the exception aborts the whole projection. -/
theorem C5_add_months_raises_on_day_31 :
    PyDate.valid ⟨2024, 1, 31⟩ = true ∧
    addMonths ⟨2024, 1, 31⟩ 1 = none ∧
    addMonths ⟨2024, 1, 30⟩ 1 = none ∧
    addMonths ⟨2025, 1, 29⟩ 1 = none := by
  decide

/-! ## C8 -/

/-- C8: the claim states every reserved binding is numeric (or the
month-name string).  The merge order is as claimed — defaults, then
overrides, then the four reserved keys, with a reserved key overwriting a
same-named user variable — but `days_in_month` is bound to the **date
object** `date(2024, 1, 31)` (the source's last-day-of-month expression
lacks a final `.day`), not to a number; any formula that uses it then fails
with a `TypeError` at evaluation. -/
theorem C8_days_in_month_is_a_date_object :
    component_variables c8_component c8_scenario_component ⟨2024, 1, 15⟩ 1 =
      some [("days_in_month", .date ⟨2024, 1, 31⟩), ("base", .int 3),
            ("month", .int 1), ("year", .int 2024),
            ("month_name", .str "january")] ∧
    (PyVal.date ⟨2024, 1, 31⟩).isNumeric = false ∧
    evaluate_formula (.binOp (.name "base") .mult (.name "days_in_month"))
      [("days_in_month", .date ⟨2024, 1, 31⟩), ("base", .int 3)] =
      .error .evaluationError := by
  decide

/-! ## C9 -/

/-- The function `evalBin` returns the zero-division fault only for
division, modulo and power. -/
theorem evalBin_zeroDivision_op (op : BinOpKind) (a b : PyVal)
    (h : evalBin op a b = .error .zeroDivision) :
    op = .div ∨ op = .mod ∨ op = .pow := by
  cases op with
  | div => exact Or.inl rfl
  | mod => exact Or.inr (Or.inl rfl)
  | pow => exact Or.inr (Or.inr rfl)
  | add => cases a <;> cases b <;> simp_all [evalBin, asF64]
  | sub => cases a <;> cases b <;> simp_all [evalBin, asF64]
  | mult => cases a <;> cases b <;> simp_all [evalBin, asF64]
  | _ => simp_all [evalBin]

/-- The function `evalUnary` never returns the zero-division fault. -/
theorem evalUnary_no_zeroDivision (op : UnaryOpKind) (a : PyVal) :
    evalUnary op a ≠ .error .zeroDivision := by
  cases op <;> cases a <;> simp [evalUnary]

theorem containsDivModPow_binOp (l : PyExpr) (op : BinOpKind) (r : PyExpr) :
    containsDivModPow (.binOp l op r) =
      ((op = .div ∨ op = .mod ∨ op = .pow : Bool) ||
        (containsDivModPow l || containsDivModPow r)) := by
  cases op <;> simp [containsDivModPow, subNodes, List.any_append]

theorem containsDivModPow_unaryOp (op : UnaryOpKind) (e : PyExpr) :
    containsDivModPow (.unaryOp op e) = containsDivModPow e := by
  simp [containsDivModPow, subNodes]

/-- C9 counterexample: the claim's "only when such a zero divisor occurs"
direction fails.  The formula `0 ** -1` contains no division or modulo at
all, yet CPython raises `ZeroDivisionError` for a zero base and negative
exponent, which `evaluate_formula` converts to the very same
`FormulaEvaluationError("Division by zero")`. -/
theorem C9_power_counterexample :
    evaluate_formula c9_pow_formula [] = .error .divisionByZero ∧
    containsDivMod c9_pow_formula = false := by
  decide

/-- C9 amended: `evaluate("a/b", {a: 10, b: 0})` fails with the
`DivisionByZero` evaluation error, and whenever the interpreter raises the
zero-division fault on a validated formula, `evaluate_formula` reports that
`DivisionByZero` error rather than an unhandled fault.  The original "only
when such a zero divisor occurs" direction is false: the same error also
arises with no division or modulo — and even with no power operator — in
the formula: from zero raised to a negative exponent (`0 ** -1`), and from
the internal rate-zero divisions of the registry helpers
(`pmt(0, 0, 100)`, `fv(0, 12, 100)`, `nper(0, 0, 100)`). -/
theorem C9_division_by_zero_cases :
    (∀ (e : PyExpr) (vars : List (String × PyVal)),
      check_node_safety e = true →
      evalPy (safe_globals vars) e = .error .zeroDivision →
      evaluate_formula e vars = .error .divisionByZero) ∧
    evaluate_formula c9_div_formula [("a", .int 10), ("b", .int 0)] =
      .error .divisionByZero ∧
    evaluate_formula c9_pow_formula [] = .error .divisionByZero ∧
    evaluate_formula c9_pmt_formula [] = .error .divisionByZero ∧
    evaluate_formula c9_fv_formula [] = .error .divisionByZero ∧
    evaluate_formula c9_nper_formula [] = .error .divisionByZero ∧
    containsDivModPow c9_pmt_formula = false ∧
    containsDivModPow c9_fv_formula = false ∧
    containsDivModPow c9_nper_formula = false := by
  refine ⟨?_, by decide, by decide, by decide, by decide, by decide,
    by decide, by decide, by decide⟩
  intro e vars hsafe hzero
  simp [evaluate_formula, hsafe, hzero]

/-- Witness for the universally quantified half of
`C9_division_by_zero_cases`, instantiated at the formula `a / b` with
`b = 0`. -/
theorem C9_division_by_zero_cases_witness :
    evaluate_formula c9_div_formula [("a", .int 10), ("b", .int 0)] =
      .error .divisionByZero :=
  C9_division_by_zero_cases.1 c9_div_formula [("a", .int 10), ("b", .int 0)]
    (by decide) (by decide)

/-! ## C10 -/

/-- C10: the evaluation environment is the function registry, then the
constants, then the caller's variables, merged in that order with later
entries winning; a caller-supplied variable whose name collides with a
registry function or constant therefore shadows the registry entry, and a
formula referencing that name sees the caller's value. -/
theorem C10_variables_shadow_registry (vars : List (String × PyVal))
    (k : String) (v : PyVal)
    (_hreg : allowed_function_names.contains k = true ∨
      (lookupVar allowed_constants k).isSome = true)
    (hv : lookupVar vars k = some v) :
    safe_globals vars k = some v ∧
    evalPy (safe_globals vars) (.name k) = .ok v := by
  constructor
  · simp [safe_globals, hv]
  · simp [evalPy, safe_globals, hv]

/-- Witness: the registry names `max` and `pi`, shadowed by caller
bindings. -/
theorem C10_variables_shadow_registry_witness :
    (safe_globals [("max", .int 5)] "max" = some (.int 5) ∧
      evalPy (safe_globals [("max", .int 5)]) (.name "max") = .ok (.int 5)) ∧
    (safe_globals [("pi", .int 3)] "pi" = some (.int 3) ∧
      evalPy (safe_globals [("pi", .int 3)]) (.name "pi") = .ok (.int 3)) :=
  ⟨C10_variables_shadow_registry _ "max" _ (Or.inl (by decide)) (by decide),
   C10_variables_shadow_registry _ "pi" _ (Or.inr (by decide)) (by decide)⟩

/-! ## C6 -/

set_option maxHeartbeats 1000000 in
/-- C6 counterexample: the claim's "regardless of the component's own stored
activation start/end dates" fails.  The activity window is checked *before*
the frequency rule, so a one-time component whose stored window starts after
the scenario's first month contributes nothing (no breakdown entry, totals
zero) to month 1 instead of its evaluated value 42; in month 2 it is active
but the one-time rule zeroes it. -/
theorem C6_one_time_counterexample :
    calculate_scenario_projection (const_fe 42) c6_scenario [c6_scenario_component]
        [c6_component] =
      some [{ projection_date := ⟨2024, 1, 15⟩, month_number := 1,
              total_income := 0, total_expenses := 0, net_cash_flow := 0,
              total_assets := 0, total_liabilities := 0, net_worth := 0,
              component_breakdown := [], active_life_events := [] },
            { projection_date := ⟨2024, 2, 15⟩, month_number := 2,
              total_income := 0, total_expenses := 0, net_cash_flow := 0,
              total_assets := 0, total_liabilities := 0, net_worth := 0,
              component_breakdown := [("bonus", ⟨0, "income", 1, none⟩)],
              active_life_events := [] }] ∧
    c6_component.frequency = "one-time" ∧
    c6_scenario.projection_months = 2 ∧
    const_fe 42 c6_component.formula [] = .ok 42 ∧ (42 : ℚ) ≠ 0 := by
  refine ⟨?_, rfl, rfl, rfl, by norm_num⟩
  simp [calculate_scenario_projection, projection_loop, month_record, month_step,
    lookup_component, is_component_active, calculate_component_value,
    component_variables, dict_update_many, dict_update, last_day_of_month,
    apply_seasonal, bd_update, addMonths, month_name, PyDate.replaceYM,
    PyDate.replaceDay, PyDate.addDays, PyDate.succDay, PyDate.predDay,
    PyDate.le, PyDate.lt, daysInMonth, isLeapYear, c6_scenario,
    c6_scenario_component, c6_component, const_fe]

/-- C6 amended: a one-time component contributes exactly 0 in every month
`m ≥ 2` regardless of its stored date window (the value function returns 0
whenever the formula evaluates); in month 1 it contributes its full
evaluated value only when its effective activation window admits the
scenario start date — when it does not, the component is skipped outright
and adds nothing to the month (no breakdown entry, accumulator unchanged). -/
theorem C6_one_time_amended
    (fe : String → List (String × PyVal) → Except String ℚ)
    (fcs : List FinancialComponent) (fc : FinancialComponent)
    (sc : ScenarioComponent) (d d1 : PyDate) (m : ℕ) (acc : MonthAcc)
    (vs vs1 : List (String × PyVal)) (v : ℚ)
    (hfreq : fc.frequency = "one-time")
    (h2 : 2 ≤ m)
    (hvars : component_variables fc sc d m = some vs)
    (hfe : fe fc.formula vs = .ok v)
    (hvars1 : component_variables fc sc d1 1 = some vs1)
    (hfe1 : fe fc.formula vs1 = .ok v)
    (hseas : fc.seasonal_factors = none)
    (hlook : lookup_component fcs sc.financial_component_id = some fc)
    (hinact : is_component_active fc sc d1 = false) :
    calculate_component_value fe fc sc d m = .ok 0 ∧
    calculate_component_value fe fc sc d1 1 = .ok v ∧
    month_step fe fcs d1 1 acc sc = acc := by
  refine ⟨?_, ?_, ?_⟩
  · have hm : 1 < m := by omega
    simp [calculate_component_value, hvars, hfe, hfreq, hm]
  · simp [calculate_component_value, hvars1, hfe1, hfreq, apply_seasonal, hseas]
  · simp [month_step, hlook, hinact]

/-- Witness for `C6_one_time_amended` at the concrete scenario of the
counterexample (month 2, and the skipped month 1). -/
theorem C6_one_time_amended_witness :
    calculate_component_value (const_fe 42) c6_component c6_scenario_component
      ⟨2024, 2, 15⟩ 2 = .ok 0 ∧
    calculate_component_value (const_fe 42) c6_component c6_scenario_component
      ⟨2024, 1, 15⟩ 1 = .ok 42 ∧
    month_step (const_fe 42) [c6_component] ⟨2024, 1, 15⟩ 1 ⟨[], 0, 0, 0, 0⟩
      c6_scenario_component = ⟨[], 0, 0, 0, 0⟩ :=
  C6_one_time_amended (const_fe 42) [c6_component] c6_component
    c6_scenario_component ⟨2024, 2, 15⟩ ⟨2024, 1, 15⟩ 2 ⟨[], 0, 0, 0, 0⟩
    [("month", .int 2), ("year", .int 2024), ("month_name", .str "february"),
     ("days_in_month", .date ⟨2024, 2, 29⟩)]
    [("month", .int 1), ("year", .int 2024), ("month_name", .str "january"),
     ("days_in_month", .date ⟨2024, 1, 31⟩)]
    42 rfl (by norm_num) (by decide) rfl (by decide) rfl rfl (by decide) (by decide)

/-! ## C2 -/

theorem bd_update_not_mem (bd : List (String × BreakdownEntry))
    (kv : String × BreakdownEntry) (h : kv.1 ∉ bd_keys bd) :
    bd_update bd kv = bd ++ [kv] := by
  have hany : ¬(bd.any (fun p => p.1 == kv.1) = true) := by
    simp only [List.any_eq_true, beq_iff_eq]
    rintro ⟨p, hp, hpe⟩
    exact h (hpe ▸ (by simpa [bd_keys] using List.mem_map_of_mem Prod.fst hp))
  simp [bd_update, hany]

theorem bd_keys_append (bd : List (String × BreakdownEntry))
    (kv : String × BreakdownEntry) :
    bd_keys (bd ++ [kv]) = bd_keys bd ++ [kv.1] := by
  simp [bd_keys]

theorem breakdown_sum_nil (cat : String) : breakdown_sum cat [] = 0 := rfl

theorem breakdown_sum_append_single (cat : String)
    (bd : List (String × BreakdownEntry)) (kv : String × BreakdownEntry) :
    breakdown_sum cat (bd ++ [kv]) =
      breakdown_sum cat bd +
        (if kv.2.category = cat ∧ kv.2.error = Option.none then kv.2.value else 0) := by
  by_cases hcat : kv.2.category = cat
  · by_cases herr : kv.2.error = Option.none
    · simp [breakdown_sum, List.filter_append, List.filter, hcat, herr]
    · have hb : (kv.2.error == Option.none) = false := by simpa using herr
      simp [breakdown_sum, List.filter_append, List.filter, hcat, herr, hb]
  · have hb : (kv.2.category == cat) = false := by simpa using hcat
    simp [breakdown_sum, List.filter_append, List.filter, hcat, hb]

theorem resolved_names_cons (fcs : List FinancialComponent)
    (sc : ScenarioComponent) (rest : List ScenarioComponent) :
    resolved_names fcs (sc :: rest) =
      (match lookup_component fcs sc.financial_component_id with
       | some fc => fc.name :: resolved_names fcs rest
       | none => resolved_names fcs rest) := by
  simp only [resolved_names, List.filterMap_cons]
  cases lookup_component fcs sc.financial_component_id <;> simp

/-- The invariant of the per-month component fold: each of the four running
totals equals the corresponding per-category sum over the error-free
breakdown entries, provided the names the scenario components resolve to
are pairwise distinct and fresh for the starting accumulator. -/
theorem month_fold_sums (fe : String → List (String × PyVal) → Except String ℚ)
    (fcs : List FinancialComponent) (d : PyDate) (m : ℕ) :
    ∀ (scs : List ScenarioComponent) (acc : MonthAcc),
      (resolved_names fcs scs).Nodup →
      (∀ n ∈ resolved_names fcs scs, n ∉ bd_keys acc.bd) →
      acc.ti = breakdown_sum "income" acc.bd →
      acc.te = breakdown_sum "expense" acc.bd →
      acc.ta = breakdown_sum "asset" acc.bd →
      acc.tl = breakdown_sum "liability" acc.bd →
      ((scs.foldl (month_step fe fcs d m) acc).ti =
          breakdown_sum "income" (scs.foldl (month_step fe fcs d m) acc).bd ∧
        (scs.foldl (month_step fe fcs d m) acc).te =
          breakdown_sum "expense" (scs.foldl (month_step fe fcs d m) acc).bd ∧
        (scs.foldl (month_step fe fcs d m) acc).ta =
          breakdown_sum "asset" (scs.foldl (month_step fe fcs d m) acc).bd ∧
        (scs.foldl (month_step fe fcs d m) acc).tl =
          breakdown_sum "liability" (scs.foldl (month_step fe fcs d m) acc).bd)
  | [], acc, _, _, h1, h2, h3, h4 => ⟨h1, h2, h3, h4⟩
  | sc :: rest, acc, hnd, hdisj, h1, h2, h3, h4 => by
    rw [List.foldl_cons]
    rcases hlk : lookup_component fcs sc.financial_component_id with _ | fc
    · have hrn : resolved_names fcs (sc :: rest) = resolved_names fcs rest := by
        rw [resolved_names_cons fcs sc rest, hlk]
      have hstep : month_step fe fcs d m acc sc = acc := by simp [month_step, hlk]
      rw [hstep]
      exact month_fold_sums fe fcs d m rest acc (hrn ▸ hnd) (hrn ▸ hdisj) h1 h2 h3 h4
    · have hrn : resolved_names fcs (sc :: rest) =
          fc.name :: resolved_names fcs rest := by
        rw [resolved_names_cons fcs sc rest, hlk]
      rw [hrn] at hnd hdisj
      by_cases hact : is_component_active fc sc d = true
      · have hkey : fc.name ∉ bd_keys acc.bd := hdisj fc.name (List.mem_cons_self _ _)
        have hdisj' : ∀ n ∈ resolved_names fcs rest,
            n ∉ bd_keys acc.bd ++ [fc.name] := by
          intro n hn
          have hne : n ≠ fc.name := by
            intro he
            exact (List.nodup_cons.mp hnd).1 (he ▸ hn)
          have hnk : n ∉ bd_keys acc.bd := hdisj n (List.mem_cons_of_mem _ hn)
          simp [hnk, hne]
        rcases hcv : calculate_component_value fe fc sc d m with msg | v
        · have hupd := bd_update_not_mem acc.bd
            (fc.name, ⟨0, fc.category, fc.id, some msg⟩) hkey
          have hstep : month_step fe fcs d m acc sc =
              { acc with bd := acc.bd ++ [(fc.name, ⟨0, fc.category, fc.id, some msg⟩)] } := by
            simp [month_step, hlk, hact, hcv, hupd]
          rw [hstep]
          refine month_fold_sums fe fcs d m rest _ (List.Nodup.of_cons hnd) ?_ ?_ ?_ ?_ ?_
          · intro n hn
            have := hdisj' n hn
            simpa [bd_keys_append] using this
          all_goals
            rw [breakdown_sum_append_single]
            simp [h1, h2, h3, h4]
        · have hupd := bd_update_not_mem acc.bd
            (fc.name, ⟨v, fc.category, fc.id, none⟩) hkey
          have hstep : month_step fe fcs d m acc sc =
              { bd := acc.bd ++ [(fc.name, ⟨v, fc.category, fc.id, none⟩)]
                ti := if fc.category == "income" then acc.ti + v else acc.ti
                te := if fc.category == "expense" then acc.te + v else acc.te
                ta := if fc.category == "asset" then acc.ta + v else acc.ta
                tl := if fc.category == "liability" then acc.tl + v else acc.tl } := by
            simp [month_step, hlk, hact, hcv, hupd]
          rw [hstep]
          refine month_fold_sums fe fcs d m rest _ (List.Nodup.of_cons hnd) ?_ ?_ ?_ ?_ ?_
          · intro n hn
            have := hdisj' n hn
            simpa [bd_keys_append] using this
          · rw [breakdown_sum_append_single]
            by_cases hc : fc.category = "income" <;> simp [hc, h1]
          · rw [breakdown_sum_append_single]
            by_cases hc : fc.category = "expense" <;> simp [hc, h2]
          · rw [breakdown_sum_append_single]
            by_cases hc : fc.category = "asset" <;> simp [hc, h3]
          · rw [breakdown_sum_append_single]
            by_cases hc : fc.category = "liability" <;> simp [hc, h4]
      · have hstep : month_step fe fcs d m acc sc = acc := by
          simp only [month_step, hlk]
          rw [if_pos]
          simp [Bool.not_eq_true] at hact
          simp [hact]
        rw [hstep]
        refine month_fold_sums fe fcs d m rest acc (List.Nodup.of_cons hnd) ?_ h1 h2 h3 h4
        intro n hn
        exact hdisj n (List.mem_cons_of_mem _ hn)

/-- Every record a month produces satisfies the totals/breakdown invariant
when the resolved component names are pairwise distinct. -/
theorem month_record_sums (fe : String → List (String × PyVal) → Except String ℚ)
    (fcs : List FinancialComponent) (scs : List ScenarioComponent)
    (lev : List PyDate) (d : PyDate) (m : ℕ)
    (hnd : (resolved_names fcs scs).Nodup) :
    (month_record fe fcs scs lev d m).total_income =
      breakdown_sum "income" (month_record fe fcs scs lev d m).component_breakdown ∧
    (month_record fe fcs scs lev d m).total_expenses =
      breakdown_sum "expense" (month_record fe fcs scs lev d m).component_breakdown ∧
    (month_record fe fcs scs lev d m).total_assets =
      breakdown_sum "asset" (month_record fe fcs scs lev d m).component_breakdown ∧
    (month_record fe fcs scs lev d m).total_liabilities =
      breakdown_sum "liability" (month_record fe fcs scs lev d m).component_breakdown ∧
    (month_record fe fcs scs lev d m).net_cash_flow =
      (month_record fe fcs scs lev d m).total_income -
        (month_record fe fcs scs lev d m).total_expenses ∧
    (month_record fe fcs scs lev d m).net_worth =
      (month_record fe fcs scs lev d m).total_assets -
        (month_record fe fcs scs lev d m).total_liabilities := by
  have hfold := month_fold_sums fe fcs d m scs ⟨[], 0, 0, 0, 0⟩ hnd
    (by intro n _; simp [bd_keys]) rfl rfl rfl rfl
  exact ⟨hfold.1, hfold.2.1, hfold.2.2.1, hfold.2.2.2, rfl, rfl⟩

/-- Every record the projection loop emits is a `month_record` for some date
and month index. -/
theorem projection_loop_mem (fe : String → List (String × PyVal) → Except String ℚ)
    (fcs : List FinancialComponent) (scs : List ScenarioComponent)
    (lev : List PyDate) :
    ∀ (k : ℕ) (d : PyDate) (m : ℕ) (recs : List MonthlyProjectionRecord)
      (r : MonthlyProjectionRecord),
      projection_loop fe fcs scs lev k d m = some recs → r ∈ recs →
      ∃ d' m', r = month_record fe fcs scs lev d' m'
  | 0, d, m, recs, r => by
    intro h hr
    simp only [projection_loop] at h
    cases h
    simp at hr
  | k + 1, d, m, recs, r => by
    intro h hr
    rcases hAdd : addMonths d 1 with _ | d'
    · simp only [projection_loop, hAdd] at h
      exact Option.noConfusion h
    · simp only [projection_loop, hAdd] at h
      rcases hrec : projection_loop fe fcs scs lev k d' (m + 1) with _ | rest
      · rw [hrec] at h
        exact Option.noConfusion h
      · rw [hrec] at h
        simp only [Option.map_some'] at h
        cases h
        rcases List.mem_cons.mp hr with h1 | h2
        · exact ⟨d, m, h1⟩
        · exact projection_loop_mem fe fcs scs lev k d' (m + 1) rest r hrec h2

/-- C2 amended: whenever the names the attached scenario components resolve
to are pairwise distinct (so that no breakdown entry is overwritten), every
emitted record's four totals equal the per-category sums over its own
error-free breakdown entries, and `net_cash_flow`/`net_worth` are the
corresponding differences.  (Without the distinctness assumption the
counterexample below breaks the claim.) -/
theorem C2_totals_match_breakdown
    (fe : String → List (String × PyVal) → Except String ℚ)
    (scen : Scenario) (scs : List ScenarioComponent)
    (fcs : List FinancialComponent) (recs : List MonthlyProjectionRecord)
    (r : MonthlyProjectionRecord)
    (hnd : (resolved_names fcs scs).Nodup)
    (hrun : calculate_scenario_projection fe scen scs fcs = some recs)
    (hr : r ∈ recs) :
    r.total_income = breakdown_sum "income" r.component_breakdown ∧
    r.total_expenses = breakdown_sum "expense" r.component_breakdown ∧
    r.total_assets = breakdown_sum "asset" r.component_breakdown ∧
    r.total_liabilities = breakdown_sum "liability" r.component_breakdown ∧
    r.net_cash_flow = breakdown_sum "income" r.component_breakdown -
      breakdown_sum "expense" r.component_breakdown ∧
    r.net_worth = breakdown_sum "asset" r.component_breakdown -
      breakdown_sum "liability" r.component_breakdown := by
  obtain ⟨d', m', hR⟩ := projection_loop_mem fe fcs scs scen.life_events
    scen.projection_months scen.start_date 1 recs r hrun hr
  subst hR
  obtain ⟨s1, s2, s3, s4, s5, s6⟩ :=
    month_record_sums fe fcs scs scen.life_events d' m' hnd
  exact ⟨s1, s2, s3, s4, by rw [s5, s1, s2], by rw [s6, s3, s4]⟩

/-- Witness for `C2_totals_match_breakdown`: a one-month scenario with a
single attached income component of value 10. -/
theorem C2_totals_match_breakdown_witness :
    c2_record.total_income = breakdown_sum "income" c2_record.component_breakdown ∧
    c2_record.total_expenses = breakdown_sum "expense" c2_record.component_breakdown ∧
    c2_record.total_assets = breakdown_sum "asset" c2_record.component_breakdown ∧
    c2_record.total_liabilities = breakdown_sum "liability" c2_record.component_breakdown ∧
    c2_record.net_cash_flow = breakdown_sum "income" c2_record.component_breakdown -
      breakdown_sum "expense" c2_record.component_breakdown ∧
    c2_record.net_worth = breakdown_sum "asset" c2_record.component_breakdown -
      breakdown_sum "liability" c2_record.component_breakdown :=
  C2_totals_match_breakdown (const_fe 10) c2_scenario [c2_scenario_component]
    [c2_component] [c2_record] c2_record
    (by simp [resolved_names, lookup_component, c2_component, c2_scenario_component])
    (by simp [calculate_scenario_projection, projection_loop, month_record, month_step,
        lookup_component, is_component_active, calculate_component_value,
        component_variables, dict_update_many, dict_update, last_day_of_month,
        apply_seasonal, bd_update, addMonths, month_name, PyDate.replaceYM,
        PyDate.replaceDay, PyDate.addDays, PyDate.succDay, PyDate.predDay,
        PyDate.le, PyDate.lt, daysInMonth, isLeapYear, c2_scenario,
        c2_scenario_component, c2_component, const_fe, c2_record])
    (by simp)

set_option maxHeartbeats 1000000 in
/-- C2 counterexample: nothing prevents the same financial component (or two
components with the same name) from being attached to a scenario twice.  The
breakdown dict is keyed by component name, so the second insertion
overwrites the first entry while both contributions are added to the totals:
`total_income = 20` but the persisted breakdown sums to 10, so
`net_cash_flow ≠ breakdown income sum − breakdown expense sum`. -/
theorem C2_duplicate_name_counterexample :
    calculate_scenario_projection (const_fe 10) c2_scenario
        [c2_scenario_component, c2_scenario_component] [c2_component] =
      some [{ projection_date := ⟨2024, 1, 15⟩, month_number := 1,
              total_income := 20, total_expenses := 0, net_cash_flow := 20,
              total_assets := 0, total_liabilities := 0, net_worth := 0,
              component_breakdown := [("salary", ⟨10, "income", 4, none⟩)],
              active_life_events := [] }] ∧
    breakdown_sum "income" [("salary", ⟨10, "income", 4, none⟩)] = 10 ∧
    breakdown_sum "expense" [("salary", ⟨10, "income", 4, none⟩)] = 0 ∧
    (20 : ℚ) ≠ 10 - 0 := by
  refine ⟨?_, ?_, ?_, by norm_num⟩
  · simp [calculate_scenario_projection, projection_loop, month_record, month_step,
      lookup_component, is_component_active, calculate_component_value,
      component_variables, dict_update_many, dict_update, last_day_of_month,
      apply_seasonal, bd_update, addMonths, month_name, PyDate.replaceYM,
      PyDate.replaceDay, PyDate.addDays, PyDate.succDay, PyDate.predDay,
      PyDate.le, PyDate.lt, daysInMonth, isLeapYear, c2_scenario,
      c2_scenario_component, c2_component, const_fe]
    norm_num
  · simp [breakdown_sum]
  · simp [breakdown_sum]

/-! ## C3 -/

theorem lookup_bd_not_mem (bd : List (String × BreakdownEntry)) (k : String)
    (h : k ∉ bd_keys bd) : lookup_bd bd k = none := by
  unfold lookup_bd
  rw [List.find?_eq_none.mpr]
  · rfl
  · intro p hp
    simp only [beq_iff_eq]
    intro he
    exact h (he ▸ (by simpa [bd_keys] using List.mem_map_of_mem Prod.fst hp))

/-- Lookup after replacing the entry at `k` in place: unchanged at other
keys. -/
theorem lookup_bd_cons (p : String × BreakdownEntry)
    (bd : List (String × BreakdownEntry)) (q : String) :
    lookup_bd (p :: bd) q =
      if (p.1 == q) = true then some p.2 else lookup_bd bd q := by
  unfold lookup_bd
  rw [List.find?_cons]
  cases h : (p.1 == q) <;> simp [h]

theorem lookup_bd_map_ne (k : String) (e : BreakdownEntry) (q : String)
    (hq : q ≠ k) :
    ∀ bd : List (String × BreakdownEntry),
      lookup_bd (bd.map fun p => if p.1 == k then (p.1, e) else p) q =
        lookup_bd bd q
  | [] => rfl
  | p :: rest => by
    have ih := lookup_bd_map_ne k e q hq rest
    simp only [List.map_cons]
    rw [lookup_bd_cons, lookup_bd_cons]
    by_cases hpk : p.1 = k
    · have hb1 : (p.1 == k) = true := by simpa using hpk
      have hb2 : (p.1 == q) = false := by
        simp only [beq_eq_false_iff_ne]
        exact fun hh => hq (hh.symm.trans hpk)
      simp [hb1, hb2]
      simpa using ih
    · have hb1 : (p.1 == k) = false := by simpa using hpk
      by_cases hpq : p.1 = q
      · have hb2 : (p.1 == q) = true := by simpa using hpq
        simp [hb1, hb2]
      · have hb2 : (p.1 == q) = false := by simpa using hpq
        simp [hb1, hb2]
        simpa using ih

theorem lookup_bd_map_self (k : String) (e : BreakdownEntry) :
    ∀ bd : List (String × BreakdownEntry),
      bd.any (fun p => p.1 == k) = true →
      lookup_bd (bd.map fun p => if p.1 == k then (p.1, e) else p) k = some e
  | [], h => by simp at h
  | p :: rest, h => by
    by_cases hpk : p.1 = k
    · have hb1 : (p.1 == k) = true := by simpa using hpk
      simp only [List.map_cons]
      rw [lookup_bd_cons]
      simp [hb1]
    · have hb1 : (p.1 == k) = false := by simpa using hpk
      have hany : rest.any (fun p => p.1 == k) = true := by
        simpa [hb1] using h
      have ih := lookup_bd_map_self k e rest hany
      simp only [List.map_cons]
      rw [lookup_bd_cons]
      simp [hb1]
      simpa using ih

/-- The update `bd_update` writes `e` at key `k` and leaves all other keys
unchanged. -/
theorem lookup_bd_update (bd : List (String × BreakdownEntry))
    (k : String) (e : BreakdownEntry) (q : String) :
    lookup_bd (bd_update bd (k, e)) q =
      if q = k then some e else lookup_bd bd q := by
  unfold bd_update
  split
  case isTrue hany =>
    by_cases hq : q = k
    · subst hq
      rw [if_pos rfl]
      exact lookup_bd_map_self q e bd hany
    · rw [if_neg hq]
      exact lookup_bd_map_ne k e q hq bd
  case isFalse hany =>
    unfold lookup_bd
    rw [List.find?_append]
    by_cases hq : q = k
    · subst hq
      have hnone : bd.find? (fun p => p.1 == q) = none := by
        rw [List.find?_eq_none]
        intro p hp hbe
        apply hany
        rw [List.any_eq_true]
        exact ⟨p, hp, hbe⟩
      simp [hnone, List.find?_cons]
    · have hsing : List.find? (fun p => p.1 == q) [(k, e)] = none := by
        rw [List.find?_eq_none]
        intro p hp hbe
        simp at hp
        rw [hp] at hbe
        simp at hbe
        exact hq hbe.symm
      simp [hsing, hq]

theorem bd_keys_update_not_mem (bd : List (String × BreakdownEntry))
    (kv : String × BreakdownEntry) (n : String)
    (h1 : n ∉ bd_keys bd) (h2 : n ≠ kv.1) :
    n ∉ bd_keys (bd_update bd kv) := by
  unfold bd_update
  split
  · have hkeys : bd_keys (bd.map fun p => if p.1 == kv.1 then (p.1, kv.2) else p) =
        bd_keys bd := by
      simp only [bd_keys, List.map_map, Function.comp_def]
      apply List.map_congr_left
      intro p _
      split <;> rfl
    rw [hkeys]
    exact h1
  · rw [bd_keys_append]
    simp [h1, h2]

/-- Keys accumulated by the month fold come from the starting accumulator or
from the resolved component names. -/
theorem bd_keys_fold_sub (fe : String → List (String × PyVal) → Except String ℚ)
    (fcs : List FinancialComponent) (d : PyDate) (m : ℕ) :
    ∀ (scs : List ScenarioComponent) (acc : MonthAcc) (n : String),
      n ∈ bd_keys ((scs.foldl (month_step fe fcs d m) acc).bd) →
      n ∈ bd_keys acc.bd ∨ n ∈ resolved_names fcs scs
  | [], acc, n => by
    intro h
    exact Or.inl h
  | sc :: rest, acc, n => by
    intro h
    rw [List.foldl_cons] at h
    rcases hlk : lookup_component fcs sc.financial_component_id with _ | fc
    · have hrn : resolved_names fcs (sc :: rest) = resolved_names fcs rest := by
        rw [resolved_names_cons fcs sc rest, hlk]
      have hstep : month_step fe fcs d m acc sc = acc := by simp [month_step, hlk]
      rw [hstep] at h
      rw [hrn]
      exact bd_keys_fold_sub fe fcs d m rest acc n h
    · have hrn : resolved_names fcs (sc :: rest) =
          fc.name :: resolved_names fcs rest := by
        rw [resolved_names_cons fcs sc rest, hlk]
      rw [hrn]
      by_cases hact : is_component_active fc sc d = true
      · rcases hcv : calculate_component_value fe fc sc d m with msg | v
        · have hstep : month_step fe fcs d m acc sc =
              { acc with bd := bd_update acc.bd (fc.name, ⟨0, fc.category, fc.id, some msg⟩) } := by
            simp [month_step, hlk, hact, hcv]
          rw [hstep] at h
          rcases bd_keys_fold_sub fe fcs d m rest _ n h with hin | hin
          · by_cases hn : n = fc.name
            · exact Or.inr (by simp [hn])
            · left
              by_contra hout
              exact bd_keys_update_not_mem acc.bd _ n hout hn hin
          · exact Or.inr (by simp [hin])
        · have hstep : month_step fe fcs d m acc sc =
              { bd := bd_update acc.bd (fc.name, ⟨v, fc.category, fc.id, none⟩)
                ti := if fc.category == "income" then acc.ti + v else acc.ti
                te := if fc.category == "expense" then acc.te + v else acc.te
                ta := if fc.category == "asset" then acc.ta + v else acc.ta
                tl := if fc.category == "liability" then acc.tl + v else acc.tl } := by
            simp [month_step, hlk, hact, hcv]
          rw [hstep] at h
          rcases bd_keys_fold_sub fe fcs d m rest _ n h with hin | hin
          · by_cases hn : n = fc.name
            · exact Or.inr (by simp [hn])
            · left
              by_contra hout
              exact bd_keys_update_not_mem acc.bd _ n hout hn hin
          · exact Or.inr (by simp [hin])
      · have hstep : month_step fe fcs d m acc sc = acc := by
          simp only [month_step, hlk]
          rw [if_pos]
          simp [Bool.not_eq_true] at hact
          simp [hact]
        rw [hstep] at h
        rcases bd_keys_fold_sub fe fcs d m rest acc n h with hin | hin
        · exact Or.inl hin
        · exact Or.inr (by simp [hin])

theorem resolved_names_append (fcs : List FinancialComponent)
    (l1 l2 : List ScenarioComponent) :
    resolved_names fcs (l1 ++ l2) = resolved_names fcs l1 ++ resolved_names fcs l2 := by
  simp [resolved_names]

/-- One loop step preserves the relation between a run containing the failed
component's zero entry and the run without that component. -/
theorem c3_step_rel (fe : String → List (String × PyVal) → Except String ℚ)
    (fcs : List FinancialComponent) (d : PyDate) (m : ℕ)
    (bname : String) (e0 : BreakdownEntry) (a b : MonthAcc)
    (sc : ScenarioComponent)
    (hname : ∀ fc, lookup_component fcs sc.financial_component_id = some fc →
      fc.name ≠ bname)
    (h1 : a.ti = b.ti) (h2 : a.te = b.te) (h3 : a.ta = b.ta) (h4 : a.tl = b.tl)
    (h5 : lookup_bd a.bd bname = some e0)
    (h6 : bname ∉ bd_keys b.bd)
    (h7 : ∀ q, q ≠ bname → lookup_bd a.bd q = lookup_bd b.bd q) :
    (month_step fe fcs d m a sc).ti = (month_step fe fcs d m b sc).ti ∧
    (month_step fe fcs d m a sc).te = (month_step fe fcs d m b sc).te ∧
    (month_step fe fcs d m a sc).ta = (month_step fe fcs d m b sc).ta ∧
    (month_step fe fcs d m a sc).tl = (month_step fe fcs d m b sc).tl ∧
    lookup_bd (month_step fe fcs d m a sc).bd bname = some e0 ∧
    bname ∉ bd_keys (month_step fe fcs d m b sc).bd ∧
    (∀ q, q ≠ bname →
      lookup_bd (month_step fe fcs d m a sc).bd q =
        lookup_bd (month_step fe fcs d m b sc).bd q) := by
  rcases hlk : lookup_component fcs sc.financial_component_id with _ | fc
  · have sa : month_step fe fcs d m a sc = a := by simp [month_step, hlk]
    have sb : month_step fe fcs d m b sc = b := by simp [month_step, hlk]
    rw [sa, sb]
    exact ⟨h1, h2, h3, h4, h5, h6, h7⟩
  · have hne := hname fc hlk
    have hne' : bname ≠ fc.name := fun hh => hne hh.symm
    by_cases hact : is_component_active fc sc d = true
    · rcases hcv : calculate_component_value fe fc sc d m with msg | v
      · have sa : month_step fe fcs d m a sc =
            { a with bd := bd_update a.bd (fc.name, ⟨0, fc.category, fc.id, some msg⟩) } := by
          simp [month_step, hlk, hact, hcv]
        have sb : month_step fe fcs d m b sc =
            { b with bd := bd_update b.bd (fc.name, ⟨0, fc.category, fc.id, some msg⟩) } := by
          simp [month_step, hlk, hact, hcv]
        rw [sa, sb]
        refine ⟨h1, h2, h3, h4, ?_, ?_, ?_⟩
        · rw [lookup_bd_update, if_neg hne']
          exact h5
        · exact bd_keys_update_not_mem b.bd _ bname h6 hne'
        · intro q hqb
          rw [lookup_bd_update, lookup_bd_update]
          by_cases hqf : q = fc.name
          · rw [if_pos hqf, if_pos hqf]
          · rw [if_neg hqf, if_neg hqf]
            exact h7 q hqb
      · have sa : month_step fe fcs d m a sc =
            { bd := bd_update a.bd (fc.name, ⟨v, fc.category, fc.id, none⟩)
              ti := if fc.category == "income" then a.ti + v else a.ti
              te := if fc.category == "expense" then a.te + v else a.te
              ta := if fc.category == "asset" then a.ta + v else a.ta
              tl := if fc.category == "liability" then a.tl + v else a.tl } := by
          simp [month_step, hlk, hact, hcv]
        have sb : month_step fe fcs d m b sc =
            { bd := bd_update b.bd (fc.name, ⟨v, fc.category, fc.id, none⟩)
              ti := if fc.category == "income" then b.ti + v else b.ti
              te := if fc.category == "expense" then b.te + v else b.te
              ta := if fc.category == "asset" then b.ta + v else b.ta
              tl := if fc.category == "liability" then b.tl + v else b.tl } := by
          simp [month_step, hlk, hact, hcv]
        rw [sa, sb]
        refine ⟨by rw [h1], by rw [h2], by rw [h3], by rw [h4], ?_, ?_, ?_⟩
        · rw [lookup_bd_update, if_neg hne']
          exact h5
        · exact bd_keys_update_not_mem b.bd _ bname h6 hne'
        · intro q hqb
          rw [lookup_bd_update, lookup_bd_update]
          by_cases hqf : q = fc.name
          · rw [if_pos hqf, if_pos hqf]
          · rw [if_neg hqf, if_neg hqf]
            exact h7 q hqb
    · have sa : month_step fe fcs d m a sc = a := by
        simp only [month_step, hlk]
        rw [if_pos]
        simp [Bool.not_eq_true] at hact
        simp [hact]
      have sb : month_step fe fcs d m b sc = b := by
        simp only [month_step, hlk]
        rw [if_pos]
        simp [Bool.not_eq_true] at hact
        simp [hact]
      rw [sa, sb]
      exact ⟨h1, h2, h3, h4, h5, h6, h7⟩

/-- The relation of `c3_step_rel` is preserved by the whole component fold. -/
theorem c3_fold_rel (fe : String → List (String × PyVal) → Except String ℚ)
    (fcs : List FinancialComponent) (d : PyDate) (m : ℕ)
    (bname : String) (e0 : BreakdownEntry) :
    ∀ (scs : List ScenarioComponent) (a b : MonthAcc),
      (∀ sc ∈ scs, ∀ fc,
        lookup_component fcs sc.financial_component_id = some fc → fc.name ≠ bname) →
      a.ti = b.ti → a.te = b.te → a.ta = b.ta → a.tl = b.tl →
      lookup_bd a.bd bname = some e0 →
      bname ∉ bd_keys b.bd →
      (∀ q, q ≠ bname → lookup_bd a.bd q = lookup_bd b.bd q) →
      ((scs.foldl (month_step fe fcs d m) a).ti =
          (scs.foldl (month_step fe fcs d m) b).ti ∧
        (scs.foldl (month_step fe fcs d m) a).te =
          (scs.foldl (month_step fe fcs d m) b).te ∧
        (scs.foldl (month_step fe fcs d m) a).ta =
          (scs.foldl (month_step fe fcs d m) b).ta ∧
        (scs.foldl (month_step fe fcs d m) a).tl =
          (scs.foldl (month_step fe fcs d m) b).tl ∧
        lookup_bd (scs.foldl (month_step fe fcs d m) a).bd bname = some e0 ∧
        bname ∉ bd_keys (scs.foldl (month_step fe fcs d m) b).bd ∧
        (∀ q, q ≠ bname →
          lookup_bd (scs.foldl (month_step fe fcs d m) a).bd q =
            lookup_bd (scs.foldl (month_step fe fcs d m) b).bd q))
  | [], a, b, _, h1, h2, h3, h4, h5, h6, h7 => ⟨h1, h2, h3, h4, h5, h6, h7⟩
  | sc :: rest, a, b, hnames, h1, h2, h3, h4, h5, h6, h7 => by
    rw [List.foldl_cons, List.foldl_cons]
    obtain ⟨s1, s2, s3, s4, s5, s6, s7⟩ :=
      c3_step_rel fe fcs d m bname e0 a b sc (hnames sc (by simp)) h1 h2 h3 h4 h5 h6 h7
    exact c3_fold_rel fe fcs d m bname e0 rest _ _
      (fun sc' h => hnames sc' (by simp [h])) s1 s2 s3 s4 s5 s6 s7

/-- Whether the projection loop completes depends only on the horizon and
the dates, never on the components or the evaluator. -/
theorem projection_loop_isSome
    (fe1 fe2 : String → List (String × PyVal) → Except String ℚ)
    (fcs1 fcs2 : List FinancialComponent) (scs1 scs2 : List ScenarioComponent)
    (lev1 lev2 : List PyDate) :
    ∀ (k : ℕ) (d : PyDate) (m1 m2 : ℕ),
      (projection_loop fe1 fcs1 scs1 lev1 k d m1).isSome =
        (projection_loop fe2 fcs2 scs2 lev2 k d m2).isSome
  | 0, d, m1, m2 => rfl
  | k + 1, d, m1, m2 => by
    have ih := fun d' => projection_loop_isSome fe1 fe2 fcs1 fcs2 scs1 scs2 lev1 lev2
      k d' (m1 + 1) (m2 + 1)
    simp only [projection_loop]
    rcases hAdd : addMonths d 1 with _ | d'
    · rfl
    · have := ih d'
      rcases hr1 : projection_loop fe1 fcs1 scs1 lev1 k d' (m1 + 1) with _ | r1 <;>
        rcases hr2 : projection_loop fe2 fcs2 scs2 lev2 k d' (m2 + 1) with _ | r2 <;>
        rw [hr1, hr2] at this <;> simp_all

/-- C3: if one active component's formula evaluation raises in some month,
the month is still produced — the loop never dies on one component: the
failing component's breakdown entry carries value 0 and the non-null error
message, every other component's entry is exactly what it would be without
the failing component, the month's totals (and the derived net figures)
equal those of the run without the failing component, and whether the
projection run completes does not depend on the components at all.
(Component names are assumed pairwise distinct, as required for
"the failing component's breakdown entry" to be well defined.) -/
theorem C3_partial_failure
    (fe : String → List (String × PyVal) → Except String ℚ)
    (fcs : List FinancialComponent) (pre post : List ScenarioComponent)
    (scB : ScenarioComponent) (fcB : FinancialComponent)
    (lev : List PyDate) (d : PyDate) (m : ℕ) (msg : String)
    (hnd : (resolved_names fcs (pre ++ scB :: post)).Nodup)
    (hlook : lookup_component fcs scB.financial_component_id = some fcB)
    (hact : is_component_active fcB scB d = true)
    (herr : calculate_component_value fe fcB scB d m = .error msg) :
    lookup_bd (month_record fe fcs (pre ++ scB :: post) lev d m).component_breakdown
        fcB.name = some ⟨0, fcB.category, fcB.id, some msg⟩ ∧
    (∀ q, q ≠ fcB.name →
      lookup_bd (month_record fe fcs (pre ++ scB :: post) lev d m).component_breakdown q =
        lookup_bd (month_record fe fcs (pre ++ post) lev d m).component_breakdown q) ∧
    (month_record fe fcs (pre ++ scB :: post) lev d m).total_income =
      (month_record fe fcs (pre ++ post) lev d m).total_income ∧
    (month_record fe fcs (pre ++ scB :: post) lev d m).total_expenses =
      (month_record fe fcs (pre ++ post) lev d m).total_expenses ∧
    (month_record fe fcs (pre ++ scB :: post) lev d m).total_assets =
      (month_record fe fcs (pre ++ post) lev d m).total_assets ∧
    (month_record fe fcs (pre ++ scB :: post) lev d m).total_liabilities =
      (month_record fe fcs (pre ++ post) lev d m).total_liabilities ∧
    (month_record fe fcs (pre ++ scB :: post) lev d m).net_cash_flow =
      (month_record fe fcs (pre ++ post) lev d m).net_cash_flow ∧
    (month_record fe fcs (pre ++ scB :: post) lev d m).net_worth =
      (month_record fe fcs (pre ++ post) lev d m).net_worth ∧
    (∀ (k : ℕ) (d' : PyDate) (m' : ℕ),
      (projection_loop fe fcs (pre ++ scB :: post) lev k d' m').isSome =
        (projection_loop fe fcs (pre ++ post) lev k d' m').isSome) := by
  have hresA : resolved_names fcs (pre ++ scB :: post) =
      resolved_names fcs pre ++ fcB.name :: resolved_names fcs post := by
    rw [resolved_names_append, resolved_names_cons, hlook]
  rw [hresA] at hnd
  obtain ⟨hnd1, hnd2, hdisj⟩ := List.nodup_append.mp hnd
  have hnotpre : fcB.name ∉ resolved_names fcs pre :=
    fun hmem => (hdisj hmem) (List.mem_cons_self _ _)
  have hnotpost : fcB.name ∉ resolved_names fcs post := (List.nodup_cons.mp hnd2).1
  set P := pre.foldl (month_step fe fcs d m) (⟨[], 0, 0, 0, 0⟩ : MonthAcc) with hP
  have hkeyP : fcB.name ∉ bd_keys P.bd := by
    intro hmem
    rcases bd_keys_fold_sub fe fcs d m pre ⟨[], 0, 0, 0, 0⟩ fcB.name hmem with h | h
    · simp [bd_keys] at h
    · exact hnotpre h
  have hstepA : month_step fe fcs d m P scB =
      { P with bd := bd_update P.bd (fcB.name, ⟨0, fcB.category, fcB.id, some msg⟩) } := by
    simp [month_step, hlook, hact, herr]
  have hnames : ∀ sc ∈ post, ∀ fc,
      lookup_component fcs sc.financial_component_id = some fc → fc.name ≠ fcB.name := by
    intro sc hsc fc hlk heq
    exact hnotpost (List.mem_filterMap.mpr ⟨sc, hsc, by rw [hlk]; simp [heq]⟩)
  have hrel := c3_fold_rel fe fcs d m fcB.name ⟨0, fcB.category, fcB.id, some msg⟩ post
    { P with bd := bd_update P.bd (fcB.name, ⟨0, fcB.category, fcB.id, some msg⟩) } P
    hnames rfl rfl rfl rfl
    (by
      show lookup_bd (bd_update P.bd (fcB.name, ⟨0, fcB.category, fcB.id, some msg⟩))
        fcB.name = _
      rw [lookup_bd_update, if_pos rfl])
    hkeyP
    (by
      intro q hq
      show lookup_bd (bd_update P.bd (fcB.name, ⟨0, fcB.category, fcB.id, some msg⟩)) q =
        lookup_bd P.bd q
      rw [lookup_bd_update, if_neg hq])
  obtain ⟨r1, r2, r3, r4, r5, r6, r7⟩ := hrel
  have hTA : (pre ++ scB :: post).foldl (month_step fe fcs d m) ⟨[], 0, 0, 0, 0⟩ =
      post.foldl (month_step fe fcs d m)
        { P with bd := bd_update P.bd (fcB.name, ⟨0, fcB.category, fcB.id, some msg⟩) } := by
    rw [List.foldl_append, List.foldl_cons, ← hP, hstepA]
  have hTB : (pre ++ post).foldl (month_step fe fcs d m) ⟨[], 0, 0, 0, 0⟩ =
      post.foldl (month_step fe fcs d m) P := by
    rw [List.foldl_append, ← hP]
  refine ⟨?_, ?_, ?_, ?_, ?_, ?_, ?_, ?_, ?_⟩
  · show lookup_bd ((pre ++ scB :: post).foldl (month_step fe fcs d m) ⟨[], 0, 0, 0, 0⟩).bd
      fcB.name = _
    rw [hTA]
    exact r5
  · intro q hq
    show lookup_bd ((pre ++ scB :: post).foldl (month_step fe fcs d m) ⟨[], 0, 0, 0, 0⟩).bd q =
      lookup_bd ((pre ++ post).foldl (month_step fe fcs d m) ⟨[], 0, 0, 0, 0⟩).bd q
    rw [hTA, hTB]
    exact r7 q hq
  · show ((pre ++ scB :: post).foldl (month_step fe fcs d m) ⟨[], 0, 0, 0, 0⟩).ti =
      ((pre ++ post).foldl (month_step fe fcs d m) ⟨[], 0, 0, 0, 0⟩).ti
    rw [hTA, hTB]
    exact r1
  · show ((pre ++ scB :: post).foldl (month_step fe fcs d m) ⟨[], 0, 0, 0, 0⟩).te =
      ((pre ++ post).foldl (month_step fe fcs d m) ⟨[], 0, 0, 0, 0⟩).te
    rw [hTA, hTB]
    exact r2
  · show ((pre ++ scB :: post).foldl (month_step fe fcs d m) ⟨[], 0, 0, 0, 0⟩).ta =
      ((pre ++ post).foldl (month_step fe fcs d m) ⟨[], 0, 0, 0, 0⟩).ta
    rw [hTA, hTB]
    exact r3
  · show ((pre ++ scB :: post).foldl (month_step fe fcs d m) ⟨[], 0, 0, 0, 0⟩).tl =
      ((pre ++ post).foldl (month_step fe fcs d m) ⟨[], 0, 0, 0, 0⟩).tl
    rw [hTA, hTB]
    exact r4
  · show ((pre ++ scB :: post).foldl (month_step fe fcs d m) ⟨[], 0, 0, 0, 0⟩).ti -
        ((pre ++ scB :: post).foldl (month_step fe fcs d m) ⟨[], 0, 0, 0, 0⟩).te =
      ((pre ++ post).foldl (month_step fe fcs d m) ⟨[], 0, 0, 0, 0⟩).ti -
        ((pre ++ post).foldl (month_step fe fcs d m) ⟨[], 0, 0, 0, 0⟩).te
    rw [hTA, hTB, r1, r2]
  · show ((pre ++ scB :: post).foldl (month_step fe fcs d m) ⟨[], 0, 0, 0, 0⟩).ta -
        ((pre ++ scB :: post).foldl (month_step fe fcs d m) ⟨[], 0, 0, 0, 0⟩).tl =
      ((pre ++ post).foldl (month_step fe fcs d m) ⟨[], 0, 0, 0, 0⟩).ta -
        ((pre ++ post).foldl (month_step fe fcs d m) ⟨[], 0, 0, 0, 0⟩).tl
    rw [hTA, hTB, r3, r4]
  · intro k d' m'
    exact projection_loop_isSome fe fe fcs fcs (pre ++ scB :: post) (pre ++ post)
      lev lev k d' m' m'

/-- Witness for `C3_partial_failure`: a month with a failing income
component (`crypto`, formula `"bad"`) alongside a healthy one (`wage`),
instantiated at concrete keys and loop arguments. -/
theorem C3_partial_failure_witness :
    lookup_bd (month_record c3_fe [c3_bad_component, c3_good_component]
        ([] ++ c3_bad_sc :: [c3_good_sc]) [] ⟨2024, 1, 15⟩ 1).component_breakdown
      "crypto" = some ⟨0, "income", 10, some "name 'x' is not defined"⟩ ∧
    lookup_bd (month_record c3_fe [c3_bad_component, c3_good_component]
        ([] ++ c3_bad_sc :: [c3_good_sc]) [] ⟨2024, 1, 15⟩ 1).component_breakdown
      "wage" =
      lookup_bd (month_record c3_fe [c3_bad_component, c3_good_component]
        ([] ++ [c3_good_sc]) [] ⟨2024, 1, 15⟩ 1).component_breakdown "wage" ∧
    (month_record c3_fe [c3_bad_component, c3_good_component]
        ([] ++ c3_bad_sc :: [c3_good_sc]) [] ⟨2024, 1, 15⟩ 1).total_income =
      (month_record c3_fe [c3_bad_component, c3_good_component]
        ([] ++ [c3_good_sc]) [] ⟨2024, 1, 15⟩ 1).total_income ∧
    (projection_loop c3_fe [c3_bad_component, c3_good_component]
        ([] ++ c3_bad_sc :: [c3_good_sc]) [] 1 ⟨2024, 1, 15⟩ 1).isSome =
      (projection_loop c3_fe [c3_bad_component, c3_good_component]
        ([] ++ [c3_good_sc]) [] 1 ⟨2024, 1, 15⟩ 1).isSome := by
  have H := C3_partial_failure c3_fe [c3_bad_component, c3_good_component]
    [] [c3_good_sc] c3_bad_sc c3_bad_component [] ⟨2024, 1, 15⟩ 1
    "name 'x' is not defined"
    (by simp [resolved_names, lookup_component, c3_bad_component, c3_good_component,
      c3_bad_sc, c3_good_sc])
    (by decide)
    (by decide)
    (by simp [calculate_component_value, component_variables, dict_update_many,
      dict_update, last_day_of_month, month_name, PyDate.replaceDay, PyDate.addDays,
      PyDate.succDay, PyDate.predDay, daysInMonth, isLeapYear, c3_bad_component,
      c3_bad_sc, c3_fe])
  exact ⟨H.1, H.2.1 "wage" (by decide), H.2.2.1,
    H.2.2.2.2.2.2.2.2 1 ⟨2024, 1, 15⟩ 1⟩

/-! ## C7 -/

theorem PyDate_le_trans {a b c : PyDate} (h1 : PyDate.le a b = true)
    (h2 : PyDate.le b c = true) : PyDate.le a c = true := by
  rcases a with ⟨y1, m1, d1⟩
  rcases b with ⟨y2, m2, d2⟩
  rcases c with ⟨y3, m3, d3⟩
  simp only [PyDate.le, Bool.or_eq_true, Bool.and_eq_true, decide_eq_true_eq,
    beq_iff_eq] at h1 h2 ⊢
  omega

theorem PyDate_not_lt_of_le {a b : PyDate} (h : PyDate.le a b = true) :
    PyDate.lt b a = false := by
  by_cases heq : b = a
  · simp [PyDate.lt, heq]
  · have hba : PyDate.le b a = false := by
      rw [Bool.eq_false_iff]
      intro hle
      apply heq
      rcases a with ⟨y1, m1, d1⟩
      rcases b with ⟨y2, m2, d2⟩
      simp only [PyDate.le, Bool.or_eq_true, Bool.and_eq_true, decide_eq_true_eq,
        beq_iff_eq] at h hle
      simp only [PyDate.mk.injEq]
      omega
    simp [PyDate.lt, hba]

/-- The last-day-of-month computation never raises (every month has at
least 28 days). -/
theorem last_day_of_month_isSome (d : PyDate) :
    ∃ ld, last_day_of_month d = some ld := by
  unfold last_day_of_month PyDate.replaceDay
  have h28 := le_daysInMonth d.year d.month
  rw [if_pos ⟨by omega, h28⟩]
  rw [Option.some_bind]
  set d4 := PyDate.addDays ⟨d.year, d.month, 28⟩ 4 with hd4
  have h28' := le_daysInMonth d4.year d4.month
  rw [if_pos ⟨le_refl 1, by omega⟩]
  exact ⟨_, rfl⟩

theorem monthSeq_succ (m0 k : ℕ) (h1 : 1 ≤ m0) (h12 : m0 ≤ 12) :
    monthSeq m0 (k + 1) = m0 :: monthSeq (m0 % 12 + 1) k := by
  unfold monthSeq
  rw [List.range_succ_eq_map, List.map_cons, List.map_map]
  congr 1
  · omega
  · apply List.map_congr_left
    intro i _
    simp only [Function.comp_apply]
    omega

theorem monthSeq_24_count (m0 : ℕ) (h1 : 1 ≤ m0) (h2 : m0 ≤ 12) :
    (monthSeq m0 24).countP (fun x => x == 1) = 2 := by
  interval_cases m0 <;> decide

/-- The 24-month loop of a single always-active yearly component: each month
gets exactly one breakdown entry, valued 100 in January and 0 elsewhere, and
the visited calendar months follow the cyclic month sequence. -/
theorem c7_loop (fe : String → List (String × PyVal) → Except String ℚ)
    (fc : FinancialComponent) (sc : ScenarioComponent)
    (hfreq : fc.frequency = "yearly") (hseas : fc.seasonal_factors = none)
    (hend : fc.end_date = none)
    (hsid : sc.financial_component_id = fc.id)
    (hso : sc.start_date_override = none) (heo : sc.end_date_override = none)
    (hfe : ∀ vs, fe fc.formula vs = .ok 1200) :
    ∀ (k : ℕ) (d : PyDate) (m : ℕ),
      d.valid = true → d.day ≤ 28 → PyDate.le fc.start_date d = true →
      ∃ recs, projection_loop fe [fc] [sc] [] k d m = some recs ∧
        recs.length = k ∧
        (∀ r ∈ recs, r.component_breakdown =
          [(fc.name, ⟨if r.projection_date.month = 1 then 100 else 0,
            fc.category, fc.id, none⟩)]) ∧
        recs.map (fun r => r.projection_date.month) = monthSeq d.month k
  | 0, d, m => by
    intro _ _ _
    exact ⟨[], rfl, rfl, by simp, by simp [monthSeq]⟩
  | k + 1, d, m => by
    intro hv hd hstart
    have hlook : lookup_component [fc] sc.financial_component_id = some fc := by
      simp [lookup_component, hsid]
    have hactive : is_component_active fc sc d = true := by
      simp only [is_component_active, hso, heo, hend, Option.getD_none]
      rw [PyDate_not_lt_of_le hstart]
      simp
    obtain ⟨ld, hld⟩ := last_day_of_month_isSome d
    have hvars : component_variables fc sc d m =
        some (dict_update_many (dict_update_many fc.vars (sc.variable_overrides.getD []))
          [("month", .int m), ("year", .int d.year),
           ("month_name", .str (month_name d.month)),
           ("days_in_month", .date ld)]) := by
      simp [component_variables, hld]
    have h12 : (1200 : ℚ) / 12 = 100 := by norm_num
    have hval : calculate_component_value fe fc sc d m =
        .ok (if d.month = 1 then 100 else 0) := by
      simp only [calculate_component_value, hvars]
      rw [hfe]
      simp only [hfreq, apply_seasonal, hseas]
      by_cases h1 : d.month = 1
      · simp [h1, h12]
      · simp [h1]
    have hbd : (month_record fe [fc] [sc] [] d m).component_breakdown =
        [(fc.name, ⟨if d.month = 1 then 100 else 0, fc.category, fc.id, none⟩)] := by
      simp [month_record, month_step, hlook, hactive, hval, bd_update]
    have hpd : (month_record fe [fc] [sc] [] d m).projection_date = d := rfl
    have hvbounds : 1 ≤ d.month ∧ d.month ≤ 12 := by
      simp only [PyDate.valid, Bool.and_eq_true, decide_eq_true_eq] at hv
      exact ⟨hv.1.1.1, hv.1.1.2⟩
    obtain ⟨d', hAdd, hv', hday', hmon', hle'⟩ := addMonths_day_le_28 d hv hd
    have hstart' : PyDate.le fc.start_date d' = true := PyDate_le_trans hstart hle'
    obtain ⟨recs', hrun', hlen', hbd', hmap'⟩ :=
      c7_loop fe fc sc hfreq hseas hend hsid hso heo hfe k d' (m + 1) hv'
        (hday' ▸ hd) hstart'
    refine ⟨month_record fe [fc] [sc] [] d m :: recs', ?_, ?_, ?_, ?_⟩
    · simp only [projection_loop, hAdd, hrun', Option.map_some']
    · simp [hlen']
    · intro r hr
      rcases List.mem_cons.mp hr with h | h
      · rw [h, hbd]
        rw [show (month_record fe [fc] [sc] [] d m).projection_date = d from rfl]
      · exact hbd' r h
    · rw [List.map_cons, hpd, hmap', hmon']
      rw [monthSeq_succ d.month k hvbounds.1 hvbounds.2]

/-- C7: a yearly component whose formula evaluates to 1200, active through a
24-month horizon (its start date is on or before the scenario start, no end
date, no overrides, no seasonal factors), contributes exactly 100 in each
January and exactly 0 in every other month, with exactly 2 January months in
any 24-month horizon whose start day avoids the month-advance fault
(day ≤ 28). -/
theorem C7_yearly_component (fe : String → List (String × PyVal) → Except String ℚ)
    (fc : FinancialComponent) (sc : ScenarioComponent) (d0 : PyDate)
    (hfreq : fc.frequency = "yearly") (hseas : fc.seasonal_factors = none)
    (hend : fc.end_date = none)
    (hsid : sc.financial_component_id = fc.id)
    (hso : sc.start_date_override = none) (heo : sc.end_date_override = none)
    (hfe : ∀ vs, fe fc.formula vs = .ok 1200)
    (hv : d0.valid = true) (hd : d0.day ≤ 28)
    (hstart : PyDate.le fc.start_date d0 = true) :
    ∃ recs, calculate_scenario_projection fe ⟨d0, 24, []⟩ [sc] [fc] = some recs ∧
      recs.length = 24 ∧
      (∀ r ∈ recs, r.component_breakdown =
        [(fc.name, ⟨if r.projection_date.month = 1 then 100 else 0,
          fc.category, fc.id, none⟩)]) ∧
      recs.countP (fun r => r.projection_date.month == 1) = 2 := by
  obtain ⟨recs, hrun, hlen, hbd, hmap⟩ :=
    c7_loop fe fc sc hfreq hseas hend hsid hso heo hfe 24 d0 1 hv hd hstart
  refine ⟨recs, hrun, hlen, hbd, ?_⟩
  have hvbounds : 1 ≤ d0.month ∧ d0.month ≤ 12 := by
    simp only [PyDate.valid, Bool.and_eq_true, decide_eq_true_eq] at hv
    exact ⟨hv.1.1.1, hv.1.1.2⟩
  have hcount : (recs.map (fun r => r.projection_date.month)).countP (fun x => x == 1) = 2 := by
    rw [hmap]
    exact monthSeq_24_count d0.month hvbounds.1 hvbounds.2
  rw [List.countP_map] at hcount
  exact hcount

/-- Witness for `C7_yearly_component`: the `insurance` component from March
2025. -/
theorem C7_yearly_component_witness :
    ∃ recs, calculate_scenario_projection (const_fe 1200) ⟨⟨2025, 3, 10⟩, 24, []⟩
        [c7_scenario_component] [c7_component] = some recs ∧
      recs.length = 24 ∧
      (∀ r ∈ recs, r.component_breakdown =
        [(c7_component.name, ⟨if r.projection_date.month = 1 then 100 else 0,
          c7_component.category, c7_component.id, none⟩)]) ∧
      recs.countP (fun r => r.projection_date.month == 1) = 2 :=
  C7_yearly_component (const_fe 1200) c7_component c7_scenario_component
    ⟨2025, 3, 10⟩ rfl rfl rfl rfl rfl rfl (fun _ => rfl)
    (by decide) (by decide) (by decide)

end LifePlanner
